import Mathlib

/-!
Shallow embedding of the PIV sealed-box, transport-chaining and PIN/admin
subsystems of pivy (src/piv.c), with proofs about the properties the
specification states for them.

Conventions of the embedding:
* bytes are `Nat` with `% 256` wherever the C code stores into a `uint8_t`;
* byte buffers (`struct sshbuf`, `struct apdubuf`) are `List Nat`;
* fallible C functions returning `errf_t *` become `Except Errf α`;
* an `errf_t` value is modelled by its chain of error names (outermost
  first), which is what callers query with `errf_caused_by`;
* the external crypto provider (ciphers, KDF digests, ECDH, curve tables,
  point validation) and the reader provider (card responses) are parameters
  of the definitions, since they live outside src/piv.c;
* `VERIFY`-style program aborts become an `AssertionError` result.
-/

/-- Chain of error names carried by an `errf_t` value, outermost wrapper
first.  `errf(name, cause, ...)` prepends `name` to the cause's chain. -/
abbrev Errf := List String

/-- Test whether an error or anything in its cause chain has the given name
(`errf_caused_by`). -/
def Errf.causedBy (e : Errf) (n : String) : Bool :=
  e.contains n

/-- Key type tag for ECDSA keys (`KEY_ECDSA` from the ssh key library; the
concrete enum value is opaque to piv.c). -/
def KEY_ECDSA : Nat := 2

/-- An ssh key object as used by the box code: a key type tag, the EC curve
identifier (`ecdsa_nid`), the public point in uncompressed form, and private
scalar material (zero for public-only keys).  The curve arithmetic itself
lives in the external crypto provider. -/
structure SshKey where
  kty : Nat := KEY_ECDSA
  nid : Nat := 0
  point : List Nat := []
  priv : Nat := 0
deriving Repr, DecidableEq

/-- Drop the private half of a key, keeping the public data
(`sshkey_demote`). -/
def sshkey_demote (k : SshKey) : SshKey :=
  { k with priv := 0 }

/-- Append one byte (`sshbuf_put_u8`). -/
def sshbuf_put_u8 (buf : List Nat) (v : Nat) : List Nat :=
  buf ++ [v % 256]

/-- Modelled from the spec: 8-bit length-prefixed byte string writer
(`sshbuf_put_string8`, from the bundled sshbuf extras which are outside
src/).  Per the box format table every variable field is written as an
8-bit count followed by the raw bytes; strings longer than 255 cannot be
represented and fail. -/
def sshbuf_put_string8 (buf : List Nat) (s : List Nat) : Option (List Nat) :=
  if s.length ≤ 255 then
    some (buf ++ s.length :: s.map (fun b => b % 256))
  else none

/-- Modelled from the spec: `sshbuf_put_cstring8` writes a name string in
the same 8-bit length-prefixed form, with no terminator. -/
def sshbuf_put_cstring8 (buf : List Nat) (s : List Nat) : Option (List Nat) :=
  sshbuf_put_string8 buf s

/-- Modelled from the spec: `sshbuf_put_eckey8` writes the uncompressed EC
point as an 8-bit length-prefixed string. -/
def sshbuf_put_eckey8 (buf : List Nat) (k : SshKey) : Option (List Nat) :=
  sshbuf_put_string8 buf k.point

/-- Modelled from the spec: `sshbuf_put_string` writes a 32-bit big-endian
length followed by the raw bytes (used for the ciphertext field). -/
def sshbuf_put_string32 (buf : List Nat) (s : List Nat) : Option (List Nat) :=
  if s.length < 2 ^ 32 then
    some (buf ++ [s.length / 2 ^ 24 % 256, s.length / 2 ^ 16 % 256,
      s.length / 2 ^ 8 % 256, s.length % 256] ++ s.map (fun b => b % 256))
  else none

/-- Read one byte (`sshbuf_get_u8`); fails when the buffer is exhausted. -/
def sshbuf_get_u8 : List Nat → Option (Nat × List Nat)
  | [] => none
  | b :: r => some (b, r)

/-- Modelled from the spec: 8-bit length-prefixed string reader
(`sshbuf_get_string8`). -/
def sshbuf_get_string8 (buf : List Nat) : Option (List Nat × List Nat) :=
  match sshbuf_get_u8 buf with
  | none => none
  | some (n, r) => if n ≤ r.length then some (r.take n, r.drop n) else none

/-- Modelled from the spec: `sshbuf_get_cstring8` reads an 8-bit
length-prefixed name string. -/
def sshbuf_get_cstring8 (buf : List Nat) : Option (List Nat × List Nat) :=
  sshbuf_get_string8 buf

/-- Modelled from the spec: 32-bit big-endian length-prefixed string reader
(`sshbuf_get_string`). -/
def sshbuf_get_string32 (buf : List Nat) : Option (List Nat × List Nat) :=
  match buf with
  | b3 :: b2 :: b1 :: b0 :: r =>
    let n := (b3 % 256) * 2 ^ 24 + (b2 % 256) * 2 ^ 16 +
      (b1 % 256) * 2 ^ 8 + b0 % 256
    if n ≤ r.length then some (r.take n, r.drop n) else none
  | _ => none

/-- Modelled from the spec: box format version constants from piv.h (outside
src/); version 2 is current, 1 is the legacy decode-only version, so the
first unsupported version is 3. -/
def PIV_BOX_V1 : Nat := 1

/-- Modelled from the spec: current box version. -/
def PIV_BOX_V2 : Nat := 2

/-- Modelled from the spec: first unsupported box version. -/
def PIV_BOX_VNEXT : Nat := 3

/-- The `struct piv_ecdh_box` data model.  `apdubuf` fields collapse to the
byte list they carry (`b_data + b_offset`, length `b_len`), the plaintext
buffer is `none` while the box is sealed, and string pointers that may be
NULL in C are `Option`s. -/
structure PivBox where
  pdb_version : Nat := PIV_BOX_VNEXT - 1
  pdb_guidslot_valid : Bool := false
  pdb_guid : List Nat := List.replicate 16 0
  pdb_slot : Nat := 0
  pdb_cipher : Option (List Nat) := none
  pdb_kdf : Option (List Nat) := none
  pdb_nonce : List Nat := []
  pdb_iv : List Nat := []
  pdb_enc : List Nat := []
  pdb_plain : Option (List Nat) := none
  pdb_pub : Option SshKey := none
  pdb_ephem : Option SshKey := none
  pdb_ephem_pub : Option SshKey := none
deriving Repr, DecidableEq

/-- A freshly allocated box (`piv_box_new`): all-zero except the version,
which is set to the current version `PIV_BOX_VNEXT - 1 = 2`. -/
def piv_box_new : PivBox := {}

/-- Serialize a box to its binary form (`sshbuf_put_piv_box`).
`nidToCurveName` abstracts `sshkey_curve_nid_to_name` from the external
crypto provider.  Returns the bytes appended after `buf`'s contents. -/
def sshbuf_put_piv_box (nidToCurveName : Nat → Option (List Nat))
    (buf : List Nat) (box : PivBox) : Except Errf (List Nat) :=
  match box.pdb_pub, box.pdb_ephem_pub with
  | some pub, some ephem_pub =>
    if pub.kty != KEY_ECDSA || ephem_pub.kty != KEY_ECDSA then
      .error ["ArgumentError"]
    else if pub.nid != ephem_pub.nid then
      .error ["ArgumentError"]
    else
      let buf := sshbuf_put_u8 (sshbuf_put_u8 buf 0xB0) 0xC5
      let ver := box.pdb_version % 256
      let buf := sshbuf_put_u8 buf ver
      let guidRes : Except Errf (List Nat) :=
        if !box.pdb_guidslot_valid then
          .ok (sshbuf_put_u8 (sshbuf_put_u8 (sshbuf_put_u8 buf 0x00) 0x00)
            0x00)
        else
          match sshbuf_put_string8 (sshbuf_put_u8 buf 0x01) box.pdb_guid with
          | none => .error ["LibSSHError"]
          | some b => .ok (sshbuf_put_u8 b box.pdb_slot)
      match guidRes with
      | .error e => .error e
      | .ok buf =>
        match box.pdb_cipher, box.pdb_kdf with
        | some cname, some kname =>
          match sshbuf_put_cstring8 buf cname with
          | none => .error ["LibSSHError"]
          | some buf =>
            match sshbuf_put_cstring8 buf kname with
            | none => .error ["LibSSHError"]
            | some buf =>
              let nonceRes : Except Errf (List Nat) :=
                if ver ≥ PIV_BOX_V2 then
                  match sshbuf_put_string8 buf box.pdb_nonce with
                  | none => .error ["LibSSHError"]
                  | some b => .ok b
                else if box.pdb_nonce == ([] : List Nat) then .ok buf
                else .error ["AssertionError"]
              match nonceRes with
              | .error e => .error e
              | .ok buf =>
                match nidToCurveName pub.nid with
                | none => .error ["AssertionError"]
                | some tname =>
                  match sshbuf_put_cstring8 buf tname with
                  | none => .error ["LibSSHError"]
                  | some buf =>
                    match sshbuf_put_eckey8 buf pub with
                    | none => .error ["LibSSHError"]
                    | some buf =>
                      match sshbuf_put_eckey8 buf ephem_pub with
                      | none => .error ["LibSSHError"]
                      | some buf =>
                        match sshbuf_put_string8 buf box.pdb_iv with
                        | none => .error ["LibSSHError"]
                        | some buf =>
                          match sshbuf_put_string32 buf box.pdb_enc with
                          | none => .error ["LibSSHError"]
                          | some buf => .ok buf
        | _, _ => .error ["AssertionError"]
  | _, _ => .error ["AssertionError"]

/-- Deserialize a box from its binary form (`sshbuf_get_piv_box`).
`curveNameToNid` abstracts `sshkey_curve_name_to_nid` and `validPub`
abstracts `sshkey_ec_validate_public` from the external crypto provider.
Note the magic check is transcribed exactly as the C source has it
(`magic[0] != 0xB0 && magic[1] != 0xC5`). -/
def sshbuf_get_piv_box (curveNameToNid : List Nat → Option Nat)
    (validPub : Nat → List Nat → Bool) (buf : List Nat) :
    Except Errf PivBox :=
  let box := piv_box_new
  match sshbuf_get_u8 buf with
  | none => .error ["InvalidDataError", "LibSSHError"]
  | some (m0, buf) =>
  match sshbuf_get_u8 buf with
  | none => .error ["InvalidDataError", "LibSSHError"]
  | some (m1, buf) =>
  if m0 != 0xB0 && m1 != 0xC5 then
    .error ["InvalidDataError", "MagicError"]
  else
  match sshbuf_get_u8 buf with
  | none => .error ["InvalidDataError", "LibSSHError"]
  | some (ver, buf) =>
  if ver < PIV_BOX_V1 || ver ≥ PIV_BOX_VNEXT then
    .error ["NotSupportedError", "VersionError"]
  else
  let box := { box with pdb_version := ver }
  match sshbuf_get_u8 buf with
  | none => .error ["InvalidDataError", "LibSSHError"]
  | some (temp, buf) =>
  let box := { box with pdb_guidslot_valid := temp != 0x00 }
  match sshbuf_get_string8 buf with
  | none => .error ["InvalidDataError", "LibSSHError"]
  | some (tmpbuf, buf) =>
  if box.pdb_guidslot_valid && tmpbuf.length != 16 then
    .error ["InvalidDataError", "LengthError"]
  else
  let box := if box.pdb_guidslot_valid then
    { box with pdb_guid := tmpbuf } else box
  match sshbuf_get_u8 buf with
  | none => .error ["InvalidDataError", "LibSSHError"]
  | some (temp2, buf) =>
  let box := if box.pdb_guidslot_valid then
    { box with pdb_slot := temp2 } else box
  match sshbuf_get_cstring8 buf with
  | none => .error ["InvalidDataError", "LibSSHError"]
  | some (cname, buf) =>
  match sshbuf_get_cstring8 buf with
  | none => .error ["InvalidDataError", "LibSSHError"]
  | some (kname, buf) =>
  let box := { box with pdb_cipher := some cname, pdb_kdf := some kname }
  let nonceRes : Except Errf (List Nat × List Nat) :=
    if ver ≥ PIV_BOX_V2 then
      match sshbuf_get_string8 buf with
      | none => .error ["InvalidDataError", "LibSSHError"]
      | some (nonce, buf) => .ok (nonce, buf)
    else .ok ([], buf)
  match nonceRes with
  | .error e => .error e
  | .ok (nonce, buf) =>
  let box := if ver ≥ PIV_BOX_V2 then { box with pdb_nonce := nonce }
    else box
  match sshbuf_get_cstring8 buf with
  | none => .error ["InvalidDataError", "LibSSHError"]
  | some (tname, buf) =>
  match curveNameToNid tname with
  | none => .error ["NotSupportedError", "CurveError"]
  | some nid =>
  match sshbuf_get_string8 buf with
  | none => .error ["InvalidDataError", "LibSSHError"]
  | some (pt1, buf) =>
  if !validPub nid pt1 then
    .error ["InvalidDataError", "LibSSHError"]
  else
  let k1 : SshKey := { kty := KEY_ECDSA, nid := nid, point := pt1, priv := 0 }
  let box := { box with pdb_pub := some k1 }
  match sshbuf_get_string8 buf with
  | none => .error ["InvalidDataError", "LibSSHError"]
  | some (pt2, buf) =>
  if !validPub nid pt2 then
    .error ["InvalidDataError", "LibSSHError"]
  else
  let k2 : SshKey := { kty := KEY_ECDSA, nid := nid, point := pt2, priv := 0 }
  let box := { box with pdb_ephem_pub := some k2 }
  match sshbuf_get_string8 buf with
  | none => .error ["InvalidDataError", "LibSSHError"]
  | some (iv, buf) =>
  let box := { box with pdb_iv := iv }
  match sshbuf_get_string32 buf with
  | none => .error ["InvalidDataError", "LibSSHError"]
  | some (enc, _) =>
  .ok ({ box with pdb_enc := enc })

/-- Concrete stand-in for the crypto provider's nid-to-curve-name table,
used to evaluate the codec on closed inputs (curve 1 is named by the single
byte 0x6E). -/
def toyNidToCurveName : Nat → Option (List Nat) :=
  fun n => if n = 1 then some [110] else none

/-- Concrete stand-in for the crypto provider's curve-name-to-nid table. -/
def toyCurveNameToNid : List Nat → Option Nat :=
  fun s => if s = [110] then some 1 else none

/-- Concrete stand-in for EC point validation that accepts every point. -/
def toyValidPub : Nat → List Nat → Bool :=
  fun _ _ => true

/-- A concrete recipient public key on toy curve 1. -/
def toyPub : SshKey :=
  { kty := KEY_ECDSA, nid := 1, point := [5], priv := 0 }

/-- A concrete ephemeral public key on toy curve 1. -/
def toyEph : SshKey :=
  { kty := KEY_ECDSA, nid := 1, point := [6], priv := 0 }

/-- A concrete well-formed v2 box without a GUID, used for closed
evaluations of the codec. -/
def toyBox : PivBox :=
  { pdb_version := 2, pdb_guidslot_valid := false,
    pdb_cipher := some [99], pdb_kdf := some [107], pdb_nonce := [1, 2],
    pdb_iv := [7], pdb_enc := [9, 9], pdb_pub := some toyPub,
    pdb_ephem_pub := some toyEph }

/-- Big-endian 4-byte encoding of a 32-bit length, as written by
`sshbuf_put_string32`. -/
def be32 (n : Nat) : List Nat :=
  [n / 2 ^ 24 % 256, n / 2 ^ 16 % 256, n / 2 ^ 8 % 256, n % 256]

theorem sshbuf_get_u8_cons (b : Nat) (r : List Nat) :
    sshbuf_get_u8 (b :: r) = some (b, r) := rfl

theorem map_mod256_of_lt (s : List Nat) (h : ∀ b ∈ s, b < 256) :
    s.map (fun b => b % 256) = s := by
  induction s with
  | nil => rfl
  | cons a t ih =>
    simp only [List.map_cons, List.cons.injEq]
    refine ⟨Nat.mod_eq_of_lt (h a (by simp)), ih (fun b hb => h b (by simp [hb]))⟩

theorem sshbuf_get_string8_exact (s r : List Nat) :
    sshbuf_get_string8 (s.length :: (s ++ r)) = some (s, r) := by
  simp [sshbuf_get_string8, sshbuf_get_u8, List.take_left, List.drop_left]

theorem sshbuf_get_string8_nil (r : List Nat) :
    sshbuf_get_string8 (0 :: r) = some ([], r) := by
  simp [sshbuf_get_string8, sshbuf_get_u8]

theorem sshbuf_get_string32_exact (s r : List Nat) (h : s.length < 2 ^ 32) :
    sshbuf_get_string32 (be32 s.length ++ (s ++ r)) = some (s, r) := by
  have h24 : s.length / 2 ^ 24 < 256 := by omega
  simp only [be32, List.cons_append, List.nil_append, sshbuf_get_string32]
  have e : s.length / 2 ^ 24 % 256 % 256 * 2 ^ 24 +
      s.length / 2 ^ 16 % 256 % 256 * 2 ^ 16 +
      s.length / 2 ^ 8 % 256 % 256 * 2 ^ 8 + s.length % 256 % 256 =
      s.length := by omega
  rw [e]
  simp [List.take_left, List.drop_left]

/-- The byte layout produced by `sshbuf_put_piv_box` for a well-formed box,
written out flat: magic, version, guid-valid flag, length-prefixed GUID,
slot byte, length-prefixed cipher and KDF names, nonce (v2 only), curve
name, the two public points, the IV, and the 32-bit length-prefixed
ciphertext. -/
def boxWire (tname cname kname : List Nat) (box : PivBox)
    (pub eph : SshKey) : List Nat :=
  [0xB0, 0xC5, box.pdb_version] ++
  (if box.pdb_guidslot_valid then
      [0x01, box.pdb_guid.length] ++ box.pdb_guid ++ [box.pdb_slot]
    else [0x00, 0x00, 0x00]) ++
  [cname.length] ++ cname ++ [kname.length] ++ kname ++
  (if PIV_BOX_V2 ≤ box.pdb_version then
      [box.pdb_nonce.length] ++ box.pdb_nonce
    else []) ++
  [tname.length] ++ tname ++
  [pub.point.length] ++ pub.point ++ [eph.point.length] ++ eph.point ++
  [box.pdb_iv.length] ++ box.pdb_iv ++
  be32 box.pdb_enc.length ++ box.pdb_enc

theorem sshbuf_put_piv_box_eq
    (nidToCurveName : Nat → Option (List Nat))
    (box : PivBox) (pub eph : SshKey) (cname kname tname : List Nat)
    (hpub : box.pdb_pub = some pub) (heph : box.pdb_ephem_pub = some eph)
    (hpubt : pub.kty = KEY_ECDSA) (hepht : eph.kty = KEY_ECDSA)
    (hnid : pub.nid = eph.nid)
    (hver2 : box.pdb_version < PIV_BOX_VNEXT)
    (hguid : ∀ b ∈ box.pdb_guid, b < 256)
    (hguidlen : box.pdb_guid.length ≤ 255)
    (hslot : box.pdb_slot < 256)
    (hcip : box.pdb_cipher = some cname) (hkdf : box.pdb_kdf = some kname)
    (hcname : ∀ b ∈ cname, b < 256) (hcnlen : cname.length ≤ 255)
    (hkname : ∀ b ∈ kname, b < 256) (hknlen : kname.length ≤ 255)
    (hnonce : ∀ b ∈ box.pdb_nonce, b < 256)
    (hnlen : box.pdb_nonce.length ≤ 255)
    (hnv1 : box.pdb_version < PIV_BOX_V2 → box.pdb_nonce = [])
    (htn : nidToCurveName pub.nid = some tname)
    (htname : ∀ b ∈ tname, b < 256) (htlen : tname.length ≤ 255)
    (hp1 : ∀ b ∈ pub.point, b < 256) (hp1len : pub.point.length ≤ 255)
    (hp2 : ∀ b ∈ eph.point, b < 256) (hp2len : eph.point.length ≤ 255)
    (hiv : ∀ b ∈ box.pdb_iv, b < 256) (hivlen : box.pdb_iv.length ≤ 255)
    (henc : ∀ b ∈ box.pdb_enc, b < 256)
    (henclen : box.pdb_enc.length < 2 ^ 32) :
    sshbuf_put_piv_box nidToCurveName [] box =
      .ok (boxWire tname cname kname box pub eph) := by
  have hm : box.pdb_version % 256 = box.pdb_version := by
    have : box.pdb_version < 256 := by
      simp only [PIV_BOX_VNEXT] at hver2; omega
    exact Nat.mod_eq_of_lt this
  have hsm : box.pdb_slot % 256 = box.pdb_slot := Nat.mod_eq_of_lt hslot
  have mg := map_mod256_of_lt _ hguid
  have mc := map_mod256_of_lt _ hcname
  have mk := map_mod256_of_lt _ hkname
  have mn := map_mod256_of_lt _ hnonce
  have mt := map_mod256_of_lt _ htname
  have mp1 := map_mod256_of_lt _ hp1
  have mp2 := map_mod256_of_lt _ hp2
  have miv := map_mod256_of_lt _ hiv
  have menc := map_mod256_of_lt _ henc
  have htn2 : nidToCurveName eph.nid = some tname := by rw [← hnid]; exact htn
  unfold sshbuf_put_piv_box
  rw [hpub, heph]
  simp only [hpubt, hepht, hnid, bne_self_eq_false, Bool.or_self,
    Bool.false_eq_true, if_false, ite_false]
  by_cases hv2 : PIV_BOX_V2 ≤ box.pdb_version
  · cases hgv : box.pdb_guidslot_valid with
    | false =>
      simp only [hgv, hcip, hkdf, hm, hsm, Bool.not_false, if_true,
        sshbuf_put_u8, sshbuf_put_cstring8, sshbuf_put_string8,
        sshbuf_put_eckey8, sshbuf_put_string32, hcnlen, hknlen, hnlen,
        htlen, hp1len, hp2len, hivlen, henclen, if_pos, htn, mg, mc, mk,
        mn, mt, mp1, mp2, miv, menc, hv2, boxWire, be32]
      simp [boxWire, hgv, hv2, List.append_assoc, be32, htn2, mt, htlen]
    | true =>
      simp only [hgv, hcip, hkdf, hm, hsm, Bool.not_true, if_false,
        sshbuf_put_u8, sshbuf_put_cstring8, sshbuf_put_string8,
        sshbuf_put_eckey8, sshbuf_put_string32, hcnlen, hknlen, hnlen,
        htlen, hp1len, hp2len, hivlen, henclen, hguidlen, if_pos, htn,
        mg, mc, mk, mn, mt, mp1, mp2, miv, menc, hv2]
      simp [boxWire, hgv, hv2, List.append_assoc, be32, hsm, htn2, mt, htlen]
  · have hne : box.pdb_nonce = [] := hnv1 (by omega)
    cases hgv : box.pdb_guidslot_valid with
    | false =>
      simp only [hgv, hcip, hkdf, hm, hsm, Bool.not_false, if_true,
        sshbuf_put_u8, sshbuf_put_cstring8, sshbuf_put_string8,
        sshbuf_put_eckey8, sshbuf_put_string32, hcnlen, hknlen, hnlen,
        htlen, hp1len, hp2len, hivlen, henclen, if_pos, htn, mg, mc, mk,
        mn, mt, mp1, mp2, miv, menc, hv2, hne]
      simp [boxWire, hgv, hv2, List.append_assoc, be32, hne, htn2, mt, htlen]
    | true =>
      simp only [hgv, hcip, hkdf, hm, hsm, Bool.not_true, if_false,
        sshbuf_put_u8, sshbuf_put_cstring8, sshbuf_put_string8,
        sshbuf_put_eckey8, sshbuf_put_string32, hcnlen, hknlen, hnlen,
        htlen, hp1len, hp2len, hivlen, henclen, hguidlen, if_pos, htn,
        mg, mc, mk, mn, mt, mp1, mp2, miv, menc, hv2, hne]
      simp [boxWire, hgv, hv2, List.append_assoc, be32, hne, hsm, htn2, mt, htlen]

/-- The box that `sshbuf_get_piv_box` reconstructs from the wire bytes of a
well-formed box: a fresh box carrying the transported fields, with public
keys rebuilt from the curve name and points and everything else left at its
`piv_box_new` defaults. -/
def boxDecoded (box : PivBox) (pub eph : SshKey)
    (cname kname : List Nat) : PivBox :=
  let p1 : SshKey :=
    { kty := KEY_ECDSA, nid := pub.nid, point := pub.point, priv := 0 }
  let p2 : SshKey :=
    { kty := KEY_ECDSA, nid := pub.nid, point := eph.point, priv := 0 }
  { pdb_version := box.pdb_version,
    pdb_guidslot_valid := box.pdb_guidslot_valid,
    pdb_guid := if box.pdb_guidslot_valid then box.pdb_guid
      else List.replicate 16 0,
    pdb_slot := if box.pdb_guidslot_valid then box.pdb_slot else 0,
    pdb_cipher := some cname,
    pdb_kdf := some kname,
    pdb_nonce := if PIV_BOX_V2 ≤ box.pdb_version then box.pdb_nonce else [],
    pdb_iv := box.pdb_iv,
    pdb_enc := box.pdb_enc,
    pdb_plain := none,
    pdb_pub := some p1,
    pdb_ephem := none,
    pdb_ephem_pub := some p2 }

theorem sshbuf_get_piv_box_eq
    (curveNameToNid : List Nat → Option Nat)
    (validPub : Nat → List Nat → Bool)
    (box : PivBox) (pub eph : SshKey) (cname kname tname : List Nat)
    (hver1 : PIV_BOX_V1 ≤ box.pdb_version)
    (hver2 : box.pdb_version < PIV_BOX_VNEXT)
    (hguidlen : box.pdb_guidslot_valid = true → box.pdb_guid.length = 16)
    (hcn : curveNameToNid tname = some pub.nid)
    (hvp1 : validPub pub.nid pub.point = true)
    (hvp2 : validPub pub.nid eph.point = true)
    (henclen : box.pdb_enc.length < 2 ^ 32) :
    sshbuf_get_piv_box curveNameToNid validPub
      (boxWire tname cname kname box pub eph) =
      .ok (boxDecoded box pub eph cname kname) := by
  have hv1 : ¬ box.pdb_version < PIV_BOX_V1 := by omega
  have hv3 : ¬ PIV_BOX_VNEXT ≤ box.pdb_version := by omega
  have hs32 : sshbuf_get_string32 (be32 box.pdb_enc.length ++ box.pdb_enc) =
      some (box.pdb_enc, []) := by
    simpa using sshbuf_get_string32_exact box.pdb_enc [] henclen
  by_cases hv2 : PIV_BOX_V2 ≤ box.pdb_version
  · cases hgv : box.pdb_guidslot_valid with
    | false =>
      simp only [boxWire, hgv, if_false, if_true, List.cons_append,
        List.nil_append, List.append_assoc, List.singleton_append,
        ite_true, ite_false, Bool.false_eq_true]
      simp [sshbuf_get_piv_box, sshbuf_get_u8_cons, sshbuf_get_cstring8,
        sshbuf_get_string8_exact, sshbuf_get_string8_nil, hv1, hv3, hv2,
        hcn, hvp1, hvp2, hs32, boxDecoded, piv_box_new, hgv,
        List.append_assoc]
    | true =>
      have hchk : (box.pdb_guid.length != 16) = false := by
        simp [hguidlen hgv]
      simp only [boxWire, hgv, if_false, if_true, List.cons_append,
        List.nil_append, List.append_assoc, List.singleton_append,
        ite_true, ite_false]
      simp [sshbuf_get_piv_box, sshbuf_get_u8_cons, sshbuf_get_cstring8,
        sshbuf_get_string8_exact, sshbuf_get_string8_nil, hv1, hv3, hv2,
        hcn, hvp1, hvp2, hs32, boxDecoded, piv_box_new, hgv, hchk,
        List.append_assoc]
  · cases hgv : box.pdb_guidslot_valid with
    | false =>
      simp only [boxWire, hgv, if_false, if_true, List.cons_append,
        List.nil_append, List.append_assoc, List.singleton_append,
        ite_true, ite_false, Bool.false_eq_true]
      simp [sshbuf_get_piv_box, sshbuf_get_u8_cons, sshbuf_get_cstring8,
        sshbuf_get_string8_exact, sshbuf_get_string8_nil, hv1, hv3, hv2,
        hcn, hvp1, hvp2, hs32, boxDecoded, piv_box_new, hgv,
        List.append_assoc]
    | true =>
      have hchk : (box.pdb_guid.length != 16) = false := by
        simp [hguidlen hgv]
      simp only [boxWire, hgv, if_false, if_true, List.cons_append,
        List.nil_append, List.append_assoc, List.singleton_append,
        ite_true, ite_false]
      simp [sshbuf_get_piv_box, sshbuf_get_u8_cons, sshbuf_get_cstring8,
        sshbuf_get_string8_exact, sshbuf_get_string8_nil, hv1, hv3, hv2,
        hcn, hvp1, hvp2, hs32, boxDecoded, piv_box_new, hgv, hchk,
        List.append_assoc]

/-- C2: for every well-formed box whose recipient and ephemeral public keys
are ECDSA keys on the same curve, decoding the binary encoding of the box
returns an equal box: `sshbuf_get_piv_box` applied to the output of
`sshbuf_put_piv_box` preserves the version, the guid-valid flag, the GUID
and slot id (when guid-valid), the cipher name, the KDF name, the nonce
(v2), the curve, both public keys, the IV, and the ciphertext. -/
theorem c2_box_codec_roundtrip
    (nidToCurveName : Nat → Option (List Nat))
    (curveNameToNid : List Nat → Option Nat)
    (validPub : Nat → List Nat → Bool)
    (box : PivBox) (pub eph : SshKey) (cname kname tname : List Nat)
    (hpub : box.pdb_pub = some pub) (heph : box.pdb_ephem_pub = some eph)
    (hpubt : pub.kty = KEY_ECDSA) (hepht : eph.kty = KEY_ECDSA)
    (hnid : pub.nid = eph.nid)
    (hver1 : PIV_BOX_V1 ≤ box.pdb_version)
    (hver2 : box.pdb_version < PIV_BOX_VNEXT)
    (hguid : ∀ b ∈ box.pdb_guid, b < 256)
    (hguidlen : box.pdb_guid.length = 16)
    (hslot : box.pdb_slot < 256)
    (hcip : box.pdb_cipher = some cname) (hkdf : box.pdb_kdf = some kname)
    (hcname : ∀ b ∈ cname, b < 256) (hcnlen : cname.length ≤ 255)
    (hkname : ∀ b ∈ kname, b < 256) (hknlen : kname.length ≤ 255)
    (hnonce : ∀ b ∈ box.pdb_nonce, b < 256)
    (hnlen : box.pdb_nonce.length ≤ 255)
    (hnv1 : box.pdb_version < PIV_BOX_V2 → box.pdb_nonce = [])
    (htn : nidToCurveName pub.nid = some tname)
    (htname : ∀ b ∈ tname, b < 256) (htlen : tname.length ≤ 255)
    (hcn : curveNameToNid tname = some pub.nid)
    (hp1 : ∀ b ∈ pub.point, b < 256) (hp1len : pub.point.length ≤ 255)
    (hp2 : ∀ b ∈ eph.point, b < 256) (hp2len : eph.point.length ≤ 255)
    (hvp1 : validPub pub.nid pub.point = true)
    (hvp2 : validPub pub.nid eph.point = true)
    (hiv : ∀ b ∈ box.pdb_iv, b < 256) (hivlen : box.pdb_iv.length ≤ 255)
    (henc : ∀ b ∈ box.pdb_enc, b < 256)
    (henclen : box.pdb_enc.length < 2 ^ 32) :
    ∃ wire box2,
      sshbuf_put_piv_box nidToCurveName [] box = .ok wire ∧
      sshbuf_get_piv_box curveNameToNid validPub wire = .ok box2 ∧
      box2.pdb_version = box.pdb_version ∧
      box2.pdb_guidslot_valid = box.pdb_guidslot_valid ∧
      (box.pdb_guidslot_valid = true →
        box2.pdb_guid = box.pdb_guid ∧ box2.pdb_slot = box.pdb_slot) ∧
      box2.pdb_cipher = box.pdb_cipher ∧
      box2.pdb_kdf = box.pdb_kdf ∧
      (PIV_BOX_V2 ≤ box.pdb_version → box2.pdb_nonce = box.pdb_nonce) ∧
      box2.pdb_pub = some (sshkey_demote pub) ∧
      box2.pdb_ephem_pub = some (sshkey_demote eph) ∧
      box2.pdb_iv = box.pdb_iv ∧
      box2.pdb_enc = box.pdb_enc := by
  refine ⟨boxWire tname cname kname box pub eph,
    boxDecoded box pub eph cname kname,
    sshbuf_put_piv_box_eq nidToCurveName box pub eph cname kname tname
      hpub heph hpubt hepht hnid hver2 hguid (by omega) hslot hcip hkdf
      hcname hcnlen hkname hknlen hnonce hnlen hnv1 htn htname htlen
      hp1 hp1len hp2 hp2len hiv hivlen henc henclen,
    sshbuf_get_piv_box_eq curveNameToNid validPub box pub eph cname kname
      tname hver1 hver2 (fun _ => hguidlen) hcn hvp1 hvp2 henclen,
    ?_, ?_, ?_, ?_, ?_, ?_, ?_, ?_, ?_, ?_⟩
  · simp [boxDecoded]
  · simp [boxDecoded]
  · intro hv; simp [boxDecoded, hv]
  · simp [boxDecoded, hcip]
  · simp [boxDecoded, hkdf]
  · intro hv; simp [boxDecoded, hv]
  · simp [boxDecoded, sshkey_demote, hpubt]
  · simp [boxDecoded, sshkey_demote, hepht, hnid]
  · simp [boxDecoded]
  · simp [boxDecoded]

/-- Witness for C2: the round-trip theorem applied to the concrete box
`toyBox` on the toy curve. -/
theorem c2_box_codec_roundtrip_witness :
    ∃ wire box2,
      sshbuf_put_piv_box toyNidToCurveName [] toyBox = .ok wire ∧
      sshbuf_get_piv_box toyCurveNameToNid toyValidPub wire = .ok box2 ∧
      box2.pdb_version = toyBox.pdb_version ∧
      box2.pdb_guidslot_valid = toyBox.pdb_guidslot_valid ∧
      (toyBox.pdb_guidslot_valid = true →
        box2.pdb_guid = toyBox.pdb_guid ∧ box2.pdb_slot = toyBox.pdb_slot) ∧
      box2.pdb_cipher = toyBox.pdb_cipher ∧
      box2.pdb_kdf = toyBox.pdb_kdf ∧
      (PIV_BOX_V2 ≤ toyBox.pdb_version →
        box2.pdb_nonce = toyBox.pdb_nonce) ∧
      box2.pdb_pub = some (sshkey_demote toyPub) ∧
      box2.pdb_ephem_pub = some (sshkey_demote toyEph) ∧
      box2.pdb_iv = toyBox.pdb_iv ∧
      box2.pdb_enc = toyBox.pdb_enc :=
  c2_box_codec_roundtrip toyNidToCurveName toyCurveNameToNid toyValidPub
    toyBox toyPub toyEph [99] [107] [110]
    (by decide) (by decide) (by decide) (by decide) (by decide)
    (by decide) (by decide) (by decide) (by decide) (by decide)
    (by decide) (by decide) (by decide) (by decide) (by decide)
    (by decide) (by decide) (by decide) (by decide) (by decide)
    (by decide) (by decide) (by decide) (by decide) (by decide)
    (by decide) (by decide) (by decide) (by decide) (by decide)
    (by decide) (by decide) (by decide)

/-- Discriminate the `Except` results of the box codec. -/
def exceptIsOk {α : Type} : Except Errf α → Bool
  | .ok _ => true
  | .error _ => false

/-- C8: the claim says decoding must fail for every buffer whose first two
bytes are not exactly `0xB0 0xC5`.  The source checks
`magic[0] != 0xB0 && magic[1] != 0xC5`, so a buffer whose first byte is
`0xB0` passes the magic check no matter what its second byte is: the
concrete buffer below has prefix `0xB0 0x00` yet decodes to a box. -/
theorem c8_wrong_magic_accepted :
    exceptIsOk (sshbuf_get_piv_box toyCurveNameToNid toyValidPub
      [176, 0, 2, 0, 0, 0, 1, 99, 1, 107, 2, 1, 2, 1, 110, 1, 5, 1, 6,
        1, 7, 0, 0, 0, 2, 9, 9]) = true ∧
    [176, 0] ≠ [0xB0, 0xC5] := by
  decide

/-- Encoding of the box layout exactly as claim C9 words it, for
comparison with the source encoder: identical to `sshbuf_put_piv_box`
except that the one-byte slot id is present only when the guid-valid flag
is set, so with guid-valid clear the cipher-name field follows immediately
after the empty GUID field. -/
def sshbuf_put_piv_box_claim_layout (nidToCurveName : Nat → Option (List Nat))
    (buf : List Nat) (box : PivBox) : Except Errf (List Nat) :=
  match box.pdb_pub, box.pdb_ephem_pub with
  | some pub, some ephem_pub =>
    if pub.kty != KEY_ECDSA || ephem_pub.kty != KEY_ECDSA then
      .error ["ArgumentError"]
    else if pub.nid != ephem_pub.nid then
      .error ["ArgumentError"]
    else
      let buf := sshbuf_put_u8 (sshbuf_put_u8 buf 0xB0) 0xC5
      let ver := box.pdb_version % 256
      let buf := sshbuf_put_u8 buf ver
      let guidRes : Except Errf (List Nat) :=
        if !box.pdb_guidslot_valid then
          .ok (sshbuf_put_u8 (sshbuf_put_u8 buf 0x00) 0x00)
        else
          match sshbuf_put_string8 (sshbuf_put_u8 buf 0x01) box.pdb_guid with
          | none => .error ["LibSSHError"]
          | some b => .ok (sshbuf_put_u8 b box.pdb_slot)
      match guidRes with
      | .error e => .error e
      | .ok buf =>
        match box.pdb_cipher, box.pdb_kdf with
        | some cname, some kname =>
          match sshbuf_put_cstring8 buf cname with
          | none => .error ["LibSSHError"]
          | some buf =>
            match sshbuf_put_cstring8 buf kname with
            | none => .error ["LibSSHError"]
            | some buf =>
              let nonceRes : Except Errf (List Nat) :=
                if ver ≥ PIV_BOX_V2 then
                  match sshbuf_put_string8 buf box.pdb_nonce with
                  | none => .error ["LibSSHError"]
                  | some b => .ok b
                else if box.pdb_nonce == ([] : List Nat) then .ok buf
                else .error ["AssertionError"]
              match nonceRes with
              | .error e => .error e
              | .ok buf =>
                match nidToCurveName pub.nid with
                | none => .error ["AssertionError"]
                | some tname =>
                  match sshbuf_put_cstring8 buf tname with
                  | none => .error ["LibSSHError"]
                  | some buf =>
                    match sshbuf_put_eckey8 buf pub with
                    | none => .error ["LibSSHError"]
                    | some buf =>
                      match sshbuf_put_eckey8 buf ephem_pub with
                      | none => .error ["LibSSHError"]
                      | some buf =>
                        match sshbuf_put_string8 buf box.pdb_iv with
                        | none => .error ["LibSSHError"]
                        | some buf =>
                          match sshbuf_put_string32 buf box.pdb_enc with
                          | none => .error ["LibSSHError"]
                          | some buf => .ok buf
        | _, _ => .error ["AssertionError"]
  | _, _ => .error ["AssertionError"]

/-- Counterexample for C9: on a concrete box with the guid-valid flag
clear, the encoder's output is not the layout the claim describes — the
source writes a 0x00 slot placeholder byte between the empty GUID field
and the cipher-name field, so the two encodings differ. -/
theorem c9_slot_byte_counterexample :
    sshbuf_put_piv_box toyNidToCurveName [] toyBox =
      .ok [176, 197, 2, 0, 0, 0, 1, 99, 1, 107, 2, 1, 2, 1, 110, 1, 5,
        1, 6, 1, 7, 0, 0, 0, 2, 9, 9] ∧
    sshbuf_put_piv_box_claim_layout toyNidToCurveName [] toyBox =
      .ok [176, 197, 2, 0, 0, 1, 99, 1, 107, 2, 1, 2, 1, 110, 1, 5,
        1, 6, 1, 7, 0, 0, 0, 2, 9, 9] ∧
    ([176, 197, 2, 0, 0, 0, 1, 99, 1, 107, 2, 1, 2, 1, 110, 1, 5,
        1, 6, 1, 7, 0, 0, 0, 2, 9, 9] : List Nat) ≠
      [176, 197, 2, 0, 0, 1, 99, 1, 107, 2, 1, 2, 1, 110, 1, 5,
        1, 6, 1, 7, 0, 0, 0, 2, 9, 9] :=
  ⟨rfl, rfl, by decide⟩

/-- C9 (amended): the one-byte slot-id field is always present in the box
encoding.  When the guid-valid flag is clear the encoder writes a 0x00
placeholder slot byte after the empty (zero-length) GUID field, so the
length-prefixed cipher-name field begins at offset 6 (not 5), and the
decoder always consumes the slot byte, leaving the decoded slot at its
default 0 when guid-valid is clear. -/
theorem c9_slot_byte_always_present
    (nidToCurveName : Nat → Option (List Nat))
    (curveNameToNid : List Nat → Option Nat)
    (validPub : Nat → List Nat → Bool)
    (box : PivBox) (pub eph : SshKey) (cname kname tname : List Nat)
    (hgv : box.pdb_guidslot_valid = false)
    (hpub : box.pdb_pub = some pub) (heph : box.pdb_ephem_pub = some eph)
    (hpubt : pub.kty = KEY_ECDSA) (hepht : eph.kty = KEY_ECDSA)
    (hnid : pub.nid = eph.nid)
    (hver1 : PIV_BOX_V1 ≤ box.pdb_version)
    (hver2 : box.pdb_version < PIV_BOX_VNEXT)
    (hguid : ∀ b ∈ box.pdb_guid, b < 256)
    (hguidlen : box.pdb_guid.length = 16)
    (hslot : box.pdb_slot < 256)
    (hcip : box.pdb_cipher = some cname) (hkdf : box.pdb_kdf = some kname)
    (hcname : ∀ b ∈ cname, b < 256) (hcnlen : cname.length ≤ 255)
    (hkname : ∀ b ∈ kname, b < 256) (hknlen : kname.length ≤ 255)
    (hnonce : ∀ b ∈ box.pdb_nonce, b < 256)
    (hnlen : box.pdb_nonce.length ≤ 255)
    (hnv1 : box.pdb_version < PIV_BOX_V2 → box.pdb_nonce = [])
    (htn : nidToCurveName pub.nid = some tname)
    (htname : ∀ b ∈ tname, b < 256) (htlen : tname.length ≤ 255)
    (hcn : curveNameToNid tname = some pub.nid)
    (hp1 : ∀ b ∈ pub.point, b < 256) (hp1len : pub.point.length ≤ 255)
    (hp2 : ∀ b ∈ eph.point, b < 256) (hp2len : eph.point.length ≤ 255)
    (hvp1 : validPub pub.nid pub.point = true)
    (hvp2 : validPub pub.nid eph.point = true)
    (hiv : ∀ b ∈ box.pdb_iv, b < 256) (hivlen : box.pdb_iv.length ≤ 255)
    (henc : ∀ b ∈ box.pdb_enc, b < 256)
    (henclen : box.pdb_enc.length < 2 ^ 32) :
    ∃ wire box2,
      sshbuf_put_piv_box nidToCurveName [] box = .ok wire ∧
      wire.take 7 =
        [0xB0, 0xC5, box.pdb_version, 0x00, 0x00, 0x00, cname.length] ∧
      sshbuf_get_piv_box curveNameToNid validPub wire = .ok box2 ∧
      box2.pdb_guidslot_valid = false ∧
      box2.pdb_slot = 0 ∧
      box2.pdb_cipher = some cname := by
  refine ⟨boxWire tname cname kname box pub eph,
    boxDecoded box pub eph cname kname,
    sshbuf_put_piv_box_eq nidToCurveName box pub eph cname kname tname
      hpub heph hpubt hepht hnid hver2 hguid (by omega) hslot hcip hkdf
      hcname hcnlen hkname hknlen hnonce hnlen hnv1 htn htname htlen
      hp1 hp1len hp2 hp2len hiv hivlen henc henclen,
    ?_,
    sshbuf_get_piv_box_eq curveNameToNid validPub box pub eph cname kname
      tname hver1 hver2 (fun h => absurd h (by simp [hgv])) hcn hvp1 hvp2
      henclen,
    ?_, ?_, ?_⟩
  · simp [boxWire, hgv, List.take_succ_cons]
  · simp [boxDecoded, hgv]
  · simp [boxDecoded, hgv]
  · simp [boxDecoded]

/-- Witness for the amended C9 theorem at the concrete box `toyBox`. -/
theorem c9_slot_byte_always_present_witness :
    ∃ wire box2,
      sshbuf_put_piv_box toyNidToCurveName [] toyBox = .ok wire ∧
      wire.take 7 =
        [0xB0, 0xC5, toyBox.pdb_version, 0x00, 0x00, 0x00,
          ([99] : List Nat).length] ∧
      sshbuf_get_piv_box toyCurveNameToNid toyValidPub wire = .ok box2 ∧
      box2.pdb_guidslot_valid = false ∧
      box2.pdb_slot = 0 ∧
      box2.pdb_cipher = some [99] :=
  c9_slot_byte_always_present toyNidToCurveName toyCurveNameToNid
    toyValidPub toyBox toyPub toyEph [99] [107] [110]
    (by decide) (by decide) (by decide) (by decide) (by decide)
    (by decide) (by decide) (by decide) (by decide) (by decide)
    (by decide) (by decide) (by decide) (by decide) (by decide)
    (by decide) (by decide) (by decide) (by decide) (by decide)
    (by decide) (by decide) (by decide) (by decide) (by decide)
    (by decide) (by decide) (by decide) (by decide) (by decide)
    (by decide) (by decide) (by decide) (by decide)

/-- An authenticated symmetric cipher from the external crypto provider
(`struct sshcipher` plus `cipher_init`/`cipher_crypt`): its parameters and
its encrypt/decrypt operations.  `encrypt key iv plain` yields the
ciphertext followed by the auth tag; `decrypt key iv enc` authenticates
`enc` and returns the decrypted `enc.length - authlen` bytes, or `none`
when the tag fails (`cipher_crypt` returning nonzero). -/
structure SshCipher where
  keylen : Nat
  ivlen : Nat
  authlen : Nat
  blocksz : Nat
  encrypt : List Nat → List Nat → List Nat → List Nat
  decrypt : List Nat → List Nat → List Nat → Option (List Nat)

/-- A KDF digest from the external crypto provider
(`ssh_digest_alg_by_name` / `ssh_digest_bytes` / `ssh_digest_*`): its
output length and the hash function itself. -/
structure SshDigest where
  dglen : Nat
  hash : List Nat → List Nat

/-- The default box cipher name, `chacha20-poly1305`, as ASCII bytes
(`BOX_DEFAULT_CIPHER` in piv.c). -/
def BOX_DEFAULT_CIPHER : List Nat :=
  [99, 104, 97, 99, 104, 97, 50, 48, 45, 112, 111, 108, 121, 49, 51,
   48, 53]

/-- The default box KDF name, `sha512`, as ASCII bytes
(`BOX_DEFAULT_KDF` in piv.c). -/
def BOX_DEFAULT_KDF : List Nat :=
  [115, 104, 97, 53, 49, 50]

/-- The entropy a sealing operation draws on: the ephemeral key that
`sshkey_generate` would produce, and the `arc4random_buf` byte streams
used for the nonce and the IV. -/
structure SealEnv where
  ephem : SshKey
  nonceStream : Nat → Nat
  ivStream : Nat → Nat

/-- Strip and verify PKCS#7 padding exactly as the tail of
`piv_box_open_offline` / `piv_box_open` does: read the final byte as the
pad length, reject pad 0 or pad greater than the block size, then check
every byte from `reallen = plainlen - padding` up to the end equals the
pad length; on success the plaintext is the first `reallen` bytes. -/
def pkcs7_strip (blocksz : Nat) (plain : List Nat) : Option (List Nat) :=
  let padding := plain.getD (plain.length - 1) 0
  if padding < 1 ∨ padding > blocksz then none
  else
    let reallen := plain.length - padding
    if (List.range (plain.length - reallen)).all
        (fun j => plain.getD (reallen + j) 0 == padding) then
      some (plain.take reallen)
    else none

/-- Seal a box to an ECDSA public key offline (`piv_box_seal_offline`).
`cipherByName`, `kdfByName` and `ecdh` abstract `cipher_by_name`, the ssh
digest table and `ECDH_compute_key` from the external crypto provider;
`env` carries the randomness the C code draws inside the call. -/
def piv_box_seal_offline
    (cipherByName : List Nat → Option SshCipher)
    (kdfByName : List Nat → Option SshDigest)
    (ecdh : SshKey → SshKey → Option (List Nat))
    (env : SealEnv) (pubk : SshKey) (box : PivBox) :
    Except Errf PivBox :=
  if pubk.kty != KEY_ECDSA then
    .error ["ArgumentError"]
  else
    let pkey := box.pdb_ephem.getD env.ephem
    let box := { box with pdb_ephem_pub := some (sshkey_demote pkey) }
    let box := { box with
      pdb_cipher := some (box.pdb_cipher.getD BOX_DEFAULT_CIPHER),
      pdb_kdf := some (box.pdb_kdf.getD BOX_DEFAULT_KDF) }
    match cipherByName (box.pdb_cipher.getD []) with
    | none => .error ["ArgumentError", "BadAlgorithmError"]
    | some ciph =>
    if ciph.authlen = 0 then .error ["AssertionError"]
    else
    let nonce1 := if PIV_BOX_V2 ≤ box.pdb_version ∧ box.pdb_nonce = [] then
        (List.range 16).map env.nonceStream
      else box.pdb_nonce
    let box := { box with pdb_nonce := nonce1 }
    match kdfByName (box.pdb_kdf.getD []) with
    | none => .error ["ArgumentError", "BadAlgorithmError"]
    | some dg =>
    if dg.dglen < ciph.keylen then
      .error ["ArgumentError", "BadAlgorithmError"]
    else
    match ecdh pkey pubk with
    | none => .error ["ArgumentError", "OpenSSLError"]
    | some sec =>
    let key := dg.hash
      (if 0 < box.pdb_nonce.length then sec ++ box.pdb_nonce else sec)
    let iv := (List.range ciph.ivlen).map env.ivStream
    let box := { box with pdb_iv := iv }
    let plain := box.pdb_plain.getD []
    if plain.length = 0 then .error ["AssertionError"]
    else
    let padding := ciph.blocksz - plain.length % ciph.blocksz
    if padding = 0 ∨ ciph.blocksz < padding then .error ["AssertionError"]
    else
    let padded := plain ++ List.replicate padding padding
    let enc := ciph.encrypt (key.take ciph.keylen) iv padded
    let box := { box with pdb_plain := none }
    .ok ({ box with pdb_pub := some (sshkey_demote pubk), pdb_enc := enc })

/-- Open a sealed box offline with the recipient private key
(`piv_box_open_offline`).  The crypto provider is abstracted as in
`piv_box_seal_offline`; the decrypted buffer `cipher_crypt` fills has
length `enclen - authlen`, which is the length of the list the abstract
`decrypt` returns. -/
def piv_box_open_offline
    (cipherByName : List Nat → Option SshCipher)
    (kdfByName : List Nat → Option SshDigest)
    (ecdh : SshKey → SshKey → Option (List Nat))
    (privkey : SshKey) (box : PivBox) : Except Errf PivBox :=
  match box.pdb_cipher, box.pdb_kdf with
  | some cn, some kn =>
    match cipherByName cn with
    | none => .error ["NotSupportedError", "BadAlgorithmError"]
    | some ciph =>
    if ciph.authlen = 0 then .error ["AssertionError"]
    else
    match kdfByName kn with
    | none => .error ["NotSupportedError", "BadAlgorithmError"]
    | some dg =>
    if dg.dglen < ciph.keylen then
      .error ["InvalidDataError", "BadAlgorithmError"]
    else
    match box.pdb_ephem_pub with
    | none => .error ["AssertionError"]
    | some ephem_pub =>
    match ecdh privkey ephem_pub with
    | none => .error ["InvalidDataError", "OpenSSLError"]
    | some sec =>
    let key := dg.hash
      (if 0 < box.pdb_nonce.length then sec ++ box.pdb_nonce else sec)
    if box.pdb_iv.length ≠ ciph.ivlen then
      .error ["InvalidDataError", "LengthError"]
    else
    if box.pdb_enc.length < ciph.authlen + ciph.blocksz then
      .error ["InvalidDataError", "LengthError"]
    else
    match ciph.decrypt (key.take ciph.keylen) box.pdb_iv box.pdb_enc with
    | none => .error ["InvalidDataError", "LibSSHError"]
    | some plain =>
    match pkcs7_strip ciph.blocksz plain with
    | none => .error ["InvalidDataError", "PaddingError"]
    | some stripped => .ok ({ box with pdb_plain := some stripped })
  | _, _ => .error ["AssertionError"]

/-- Open a sealed box with the card's key (`piv_box_open`): identical to
the offline variant except the shared secret comes from the card via
`piv_ecdh` (abstracted as `cardEcdh`, whose failure is wrapped as a
`BoxKeyError`). -/
def piv_box_open
    (cipherByName : List Nat → Option SshCipher)
    (kdfByName : List Nat → Option SshDigest)
    (cardEcdh : SshKey → Except Errf (List Nat))
    (box : PivBox) : Except Errf PivBox :=
  match box.pdb_cipher, box.pdb_kdf with
  | some cn, some kn =>
    match cipherByName cn with
    | none => .error ["NotSupportedError", "BadAlgorithmError"]
    | some ciph =>
    if ciph.authlen = 0 then .error ["AssertionError"]
    else
    match kdfByName kn with
    | none => .error ["NotSupportedError", "BadAlgorithmError"]
    | some dg =>
    if dg.dglen < ciph.keylen then
      .error ["InvalidDataError", "BadAlgorithmError"]
    else
    match box.pdb_ephem_pub with
    | none => .error ["AssertionError"]
    | some ephem_pub =>
    match cardEcdh ephem_pub with
    | .error e => .error ("BoxKeyError" :: e)
    | .ok sec =>
    let key := dg.hash
      (if 0 < box.pdb_nonce.length then sec ++ box.pdb_nonce else sec)
    if box.pdb_iv.length ≠ ciph.ivlen then
      .error ["InvalidDataError", "LengthError"]
    else
    if box.pdb_enc.length < ciph.authlen + ciph.blocksz then
      .error ["InvalidDataError", "LengthError"]
    else
    match ciph.decrypt (key.take ciph.keylen) box.pdb_iv box.pdb_enc with
    | none => .error ["InvalidDataError", "LibSSHError"]
    | some plain =>
    match pkcs7_strip ciph.blocksz plain with
    | none => .error ["InvalidDataError", "PaddingError"]
    | some stripped => .ok ({ box with pdb_plain := some stripped })
  | _, _ => .error ["AssertionError"]

theorem getD_replicate_of_lt (a d : Nat) (n j : Nat) (h : j < n) :
    (List.replicate n a).getD j d = a := by
  rw [List.getD_eq_getElem _ _ (by simpa using h)]
  simp

theorem pkcs7_strip_padded (blocksz : Nat) (hblk : 0 < blocksz)
    (plain : List Nat) :
    pkcs7_strip blocksz
      (plain ++ List.replicate (blocksz - plain.length % blocksz)
        (blocksz - plain.length % blocksz)) = some plain := by
  have hr : plain.length % blocksz < blocksz := Nat.mod_lt _ hblk
  set p := blocksz - plain.length % blocksz with hp
  have hp1 : 1 ≤ p := by omega
  have hpb : p ≤ blocksz := by omega
  have hlen : (plain ++ List.replicate p p).length = plain.length + p := by
    simp
  have hlast : (plain ++ List.replicate p p).getD (plain.length + p - 1) 0
      = p := by
    rw [List.getD_append_right _ _ _ _ (by omega)]
    have e : plain.length + p - 1 - plain.length = p - 1 := by omega
    rw [e]
    exact getD_replicate_of_lt p 0 p (p - 1) (by omega)
  have hco : plain.length + p - p = plain.length := by omega
  have hall : (List.range (plain.length + p - (plain.length + p - p))).all
      (fun j => (plain ++ List.replicate p p).getD
        (plain.length + p - p + j) 0 == p) = true := by
    rw [List.all_eq_true]
    intro j hj
    rw [List.mem_range] at hj
    rw [hco] at hj ⊢
    have : j < p := by omega
    rw [List.getD_append_right _ _ _ _ (by omega)]
    have e : plain.length + j - plain.length = j := by omega
    rw [e, getD_replicate_of_lt p 0 p j this]
    exact beq_self_eq_true p
  simp only [pkcs7_strip, hlen, hlast]
  rw [if_neg (by omega), if_pos hall, hco, List.take_left]


/-- C1: for every ECDSA key pair and every non-empty plaintext, sealing the
plaintext to the public key with `piv_box_seal_offline` (default cipher
`chacha20-poly1305`, default KDF `sha512`) and then opening the resulting
box with `piv_box_open_offline` under the corresponding private key
succeeds and yields exactly the original plaintext.  The cipher, KDF and
ECDH implementations live in the external crypto provider, so the
hypotheses state what that provider guarantees for this key pair and the
default AEAD cipher: the two ECDH computations agree on the shared secret,
decryption inverts encryption under equal key and IV, and the ciphertext
carries `authlen` extra tag bytes. -/
theorem c1_seal_open_roundtrip
    (cipherByName : List Nat → Option SshCipher)
    (kdfByName : List Nat → Option SshDigest)
    (ecdh : SshKey → SshKey → Option (List Nat))
    (env : SealEnv) (privkey pubk : SshKey) (box : PivBox)
    (pt Z : List Nat) (ciph : SshCipher) (dg : SshDigest)
    (hpt : box.pdb_plain = some pt) (hptne : pt.length ≠ 0)
    (hcipn : box.pdb_cipher = none) (hkdfn : box.pdb_kdf = none)
    (hpubt : pubk.kty = KEY_ECDSA)
    (hciph : cipherByName BOX_DEFAULT_CIPHER = some ciph)
    (hauth : ciph.authlen ≠ 0) (hblk : 0 < ciph.blocksz)
    (hdg : kdfByName BOX_DEFAULT_KDF = some dg)
    (hdglen : ¬ dg.dglen < ciph.keylen)
    (hencl : ∀ k iv m, (ciph.encrypt k iv m).length =
      m.length + ciph.authlen)
    (hdecenc : ∀ k iv m, ciph.decrypt k iv (ciph.encrypt k iv m) = some m)
    (hecdh1 : ecdh (box.pdb_ephem.getD env.ephem) pubk = some Z)
    (hecdh2 : ecdh privkey
      (sshkey_demote (box.pdb_ephem.getD env.ephem)) = some Z) :
    ∃ box1 box2,
      piv_box_seal_offline cipherByName kdfByName ecdh env pubk box =
        .ok box1 ∧
      piv_box_open_offline cipherByName kdfByName ecdh privkey box1 =
        .ok box2 ∧
      box2.pdb_plain = some pt := by
  have hr : pt.length % ciph.blocksz < ciph.blocksz :=
    Nat.mod_lt _ hblk
  have hrle : pt.length % ciph.blocksz ≤ pt.length := Nat.mod_le _ _
  set pkey := box.pdb_ephem.getD env.ephem with hpkey
  set nonce1 := (if PIV_BOX_V2 ≤ box.pdb_version ∧ box.pdb_nonce = []
    then (List.range 16).map env.nonceStream else box.pdb_nonce)
    with hnonce1
  set iv1 := (List.range ciph.ivlen).map env.ivStream with hiv1
  set key1 := dg.hash (if 0 < nonce1.length then Z ++ nonce1 else Z)
    with hkey1
  set pad1 := ciph.blocksz - pt.length % ciph.blocksz with hpad1
  set padded1 := pt ++ List.replicate pad1 pad1 with hpadded1
  set enc1 := ciph.encrypt (key1.take ciph.keylen) iv1 padded1 with henc1
  have hivl : iv1.length = ciph.ivlen := by rw [hiv1]; simp
  have hlenenc : ¬ (enc1.length < ciph.authlen + ciph.blocksz) := by
    rw [henc1, hencl, hpadded1]
    simp only [List.length_append, List.length_replicate]
    omega
  have hdec1 : ciph.decrypt (key1.take ciph.keylen) iv1 enc1 =
      some padded1 := by rw [henc1]; exact hdecenc _ _ _
  have hstrip : pkcs7_strip ciph.blocksz padded1 = some pt := by
    rw [hpadded1, hpad1]; exact pkcs7_strip_padded ciph.blocksz hblk pt
  refine ⟨{ box with
      pdb_ephem_pub := some (sshkey_demote pkey),
      pdb_cipher := some BOX_DEFAULT_CIPHER,
      pdb_kdf := some BOX_DEFAULT_KDF,
      pdb_nonce := nonce1,
      pdb_iv := iv1,
      pdb_plain := none,
      pdb_pub := some (sshkey_demote pubk),
      pdb_enc := enc1 },
    { box with
      pdb_ephem_pub := some (sshkey_demote pkey),
      pdb_cipher := some BOX_DEFAULT_CIPHER,
      pdb_kdf := some BOX_DEFAULT_KDF,
      pdb_nonce := nonce1,
      pdb_iv := iv1,
      pdb_plain := some pt,
      pdb_pub := some (sshkey_demote pubk),
      pdb_enc := enc1 }, ?_, ?_, rfl⟩
  · simp only [piv_box_seal_offline, hpubt, hcipn, hkdfn, hpt,
      Option.getD_some, Option.getD_none, bne_self_eq_false,
      Bool.false_eq_true, if_false, ite_false, hciph, hdg, hecdh1,
      ← hpkey, ← hnonce1, ← hiv1, ← hkey1, ← hpad1, ← hpadded1, ← henc1]
    rw [if_neg hauth, if_neg hdglen, if_neg hptne,
      if_neg (by omega : ¬ (pad1 = 0 ∨ ciph.blocksz < pad1))]
  · simp only [piv_box_open_offline, hciph, hdg, hecdh2, hdec1, hstrip,
      hivl, ne_eq, not_true_eq_false, if_false, ite_false]
    rw [if_neg hauth, if_neg hdglen, if_neg hlenenc]

/-- A concrete stand-in AEAD cipher used to evaluate the box crypto on
closed inputs: the ciphertext is the plaintext followed by a two-byte tag
and decryption strips the tag. -/
def toyCipher : SshCipher :=
  { keylen := 2, ivlen := 3, authlen := 2, blocksz := 4,
    encrypt := fun _ _ m => m ++ [7, 7],
    decrypt := fun _ _ e => some (e.take (e.length - 2)) }

/-- A concrete stand-in KDF digest with two-byte output. -/
def toyKdf : SshDigest :=
  { dglen := 2, hash := fun l => [l.sum % 256, 0] }

/-- Concrete cipher table knowing only the default box cipher. -/
def toyCipherByName : List Nat → Option SshCipher :=
  fun s => if s = BOX_DEFAULT_CIPHER then some toyCipher else none

/-- Concrete KDF table knowing only the default box KDF. -/
def toyKdfByName : List Nat → Option SshDigest :=
  fun s => if s = BOX_DEFAULT_KDF then some toyKdf else none

/-- Concrete stand-in ECDH: multiply our private scalar by the peer's
public value, so both sides of a key agreement derive the same secret. -/
def toyEcdh : SshKey → SshKey → Option (List Nat) :=
  fun a b => some [(a.priv * b.point.headD 0) % 251]

/-- A concrete recipient key pair (private scalar 3, public value 3). -/
def toyRecip : SshKey :=
  { kty := KEY_ECDSA, nid := 1, point := [3], priv := 3 }

/-- A concrete ephemeral key pair (private scalar 5, public value 5). -/
def toyEphKey : SshKey :=
  { kty := KEY_ECDSA, nid := 1, point := [5], priv := 5 }

/-- Concrete sealing entropy: the ephemeral key above and fixed byte
streams for the nonce and IV. -/
def toyEnv : SealEnv :=
  { ephem := toyEphKey, nonceStream := fun i => i + 1,
    ivStream := fun i => 2 * i }

/-- A fresh box holding the plaintext `hi`, ready to seal. -/
def toySealBox : PivBox := { pdb_plain := some [104, 105] }

/-- Witness for C1: sealing `hi` to the toy recipient key and opening with
the toy private key returns `hi`. -/
theorem c1_seal_open_roundtrip_witness :
    ∃ box1 box2,
      piv_box_seal_offline toyCipherByName toyKdfByName toyEcdh toyEnv
        (sshkey_demote toyRecip) toySealBox = .ok box1 ∧
      piv_box_open_offline toyCipherByName toyKdfByName toyEcdh toyRecip
        box1 = .ok box2 ∧
      box2.pdb_plain = some [104, 105] :=
  c1_seal_open_roundtrip toyCipherByName toyKdfByName toyEcdh toyEnv
    toyRecip (sshkey_demote toyRecip) toySealBox [104, 105] [15]
    toyCipher toyKdf
    rfl (by decide) rfl rfl rfl rfl (by decide) (by decide) rfl
    (by decide)
    (fun k iv m => by simp [toyCipher])
    (fun k iv m => by simp [toyCipher])
    rfl rfl

/-- The padding-failure condition as claim C3 words it: the final pad byte
is 0, or the final pad byte exceeds the cipher block size, or one of the
trailing pad bytes differs from the pad length. -/
def pad_check_fails (blocksz : Nat) (dec : List Nat) : Prop :=
  let padlen := dec.getD (dec.length - 1) 0
  padlen = 0 ∨ blocksz < padlen ∨
    ∃ i, dec.length - padlen ≤ i ∧ i < dec.length ∧ dec.getD i 0 ≠ padlen

theorem pkcs7_strip_none_iff (blocksz : Nat) (dec : List Nat) :
    pkcs7_strip blocksz dec = none ↔ pad_check_fails blocksz dec := by
  unfold pkcs7_strip pad_check_fails
  set padlen := dec.getD (dec.length - 1) 0 with hpl
  by_cases h0 : padlen < 1 ∨ padlen > blocksz
  · rw [if_pos h0]
    simp only [true_iff]
    rcases h0 with h | h
    · exact Or.inl (by omega)
    · exact Or.inr (Or.inl h)
  · rw [if_neg h0]
    push_neg at h0
    obtain ⟨h1, h2⟩ := h0
    constructor
    · intro h
      by_cases hall : (List.range (dec.length - (dec.length - padlen))).all
          (fun j => dec.getD (dec.length - padlen + j) 0 == padlen) = true
      · rw [if_pos hall] at h; exact absurd h (by simp)
      · refine Or.inr (Or.inr ?_)
        rw [List.all_eq_true] at hall
        push_neg at hall
        obtain ⟨j, hj, hne⟩ := hall
        rw [List.mem_range] at hj
        refine ⟨dec.length - padlen + j, by omega, by omega, ?_⟩
        simpa using hne
    · intro h
      rcases h with h | h | h
      · omega
      · omega
      · obtain ⟨i, hi1, hi2, hne⟩ := h
        have hall : ¬ (List.range (dec.length - (dec.length - padlen))).all
            (fun j => dec.getD (dec.length - padlen + j) 0 == padlen)
            = true := by
          rw [List.all_eq_true]
          push_neg
          refine ⟨i - (dec.length - padlen), ?_, ?_⟩
          · rw [List.mem_range]; omega
          · have e : dec.length - padlen + (i - (dec.length - padlen)) = i :=
              by omega
            rw [e]
            simpa using hne
        rw [if_neg hall]

theorem pkcs7_strip_some_of_ok (blocksz : Nat) (dec : List Nat)
    (h : ¬ pad_check_fails blocksz dec) :
    pkcs7_strip blocksz dec =
      some (dec.take (dec.length - dec.getD (dec.length - 1) 0)) := by
  rcases he : pkcs7_strip blocksz dec with _ | s
  · exact absurd ((pkcs7_strip_none_iff blocksz dec).mp he) h
  · unfold pkcs7_strip at he
    set padlen := dec.getD (dec.length - 1) 0 with hpl
    by_cases h0 : padlen < 1 ∨ padlen > blocksz
    · rw [if_pos h0] at he; exact absurd he (by simp)
    · rw [if_neg h0] at he
      by_cases hall : (List.range (dec.length - (dec.length - padlen))).all
          (fun j => dec.getD (dec.length - padlen + j) 0 == padlen) = true
      · rw [if_pos hall] at he
        simp [← he]
      · rw [if_neg hall] at he; exact absurd he (by simp)

/-- A box with its plaintext buffer installed, as the open functions
produce on success. -/
def box_with_plain (box : PivBox) (p : List Nat) : PivBox :=
  { box with pdb_plain := some p }

/-- C3: when opening a box (`piv_box_open` or `piv_box_open_offline`),
after authenticated decryption succeeds the PKCS#7 padding check fails —
returning an error caused by `PaddingError` and installing no plaintext —
if and only if the final pad byte is 0, or the final pad byte exceeds the
cipher block size, or any of the trailing pad bytes differs from the pad
length; otherwise the pad bytes are stripped and the remaining bytes
installed as the plaintext.  The hypotheses pin the earlier stages: the
cipher and KDF resolve, the ECDH step yields `sec` (on both the offline
and the on-card paths), the IV and ciphertext lengths pass their checks,
and the authenticated decryption succeeds with output `dec`. -/
theorem c3_padding_check_iff
    (cipherByName : List Nat → Option SshCipher)
    (kdfByName : List Nat → Option SshDigest)
    (ecdh : SshKey → SshKey → Option (List Nat))
    (cardEcdh : SshKey → Except Errf (List Nat))
    (privkey : SshKey) (box : PivBox) (cn kn : List Nat)
    (ciph : SshCipher) (dg : SshDigest) (ep : SshKey) (sec dec : List Nat)
    (hcip : box.pdb_cipher = some cn) (hkdf : box.pdb_kdf = some kn)
    (hciph : cipherByName cn = some ciph)
    (hauth : ciph.authlen ≠ 0)
    (hdg : kdfByName kn = some dg)
    (hdglen : ¬ dg.dglen < ciph.keylen)
    (hep : box.pdb_ephem_pub = some ep)
    (hsec : ecdh privkey ep = some sec)
    (hcard : cardEcdh ep = .ok sec)
    (hivlen : ¬ box.pdb_iv.length ≠ ciph.ivlen)
    (henclen : ¬ box.pdb_enc.length < ciph.authlen + ciph.blocksz)
    (hdec : ciph.decrypt
      ((dg.hash (if 0 < box.pdb_nonce.length then sec ++ box.pdb_nonce
        else sec)).take ciph.keylen) box.pdb_iv box.pdb_enc = some dec) :
    (piv_box_open_offline cipherByName kdfByName ecdh privkey box =
        .error ["InvalidDataError", "PaddingError"] ↔
      pad_check_fails ciph.blocksz dec) ∧
    (piv_box_open cipherByName kdfByName cardEcdh box =
        .error ["InvalidDataError", "PaddingError"] ↔
      pad_check_fails ciph.blocksz dec) ∧
    Errf.causedBy ["InvalidDataError", "PaddingError"] "PaddingError"
      = true ∧
    (¬ pad_check_fails ciph.blocksz dec →
      piv_box_open_offline cipherByName kdfByName ecdh privkey box =
        .ok (box_with_plain box
          (dec.take (dec.length - dec.getD (dec.length - 1) 0))) ∧
      piv_box_open cipherByName kdfByName cardEcdh box =
        .ok (box_with_plain box
          (dec.take (dec.length - dec.getD (dec.length - 1) 0)))) := by
  have hredOff : piv_box_open_offline cipherByName kdfByName ecdh privkey
      box = match pkcs7_strip ciph.blocksz dec with
      | none => .error ["InvalidDataError", "PaddingError"]
      | some s => .ok (box_with_plain box s) := by
    simp only [piv_box_open_offline, hcip, hkdf, hciph, hdg, hep, hsec,
      hdec]
    rw [if_neg hauth, if_neg hdglen, if_neg hivlen, if_neg henclen]
    rcases hx : pkcs7_strip ciph.blocksz dec with _ | s
    all_goals simp [hx, box_with_plain, hcip, hkdf, hep]
  have hredOn : piv_box_open cipherByName kdfByName cardEcdh box =
      match pkcs7_strip ciph.blocksz dec with
      | none => .error ["InvalidDataError", "PaddingError"]
      | some s => .ok (box_with_plain box s) := by
    simp only [piv_box_open, hcip, hkdf, hciph, hdg, hep, hcard, hdec]
    rw [if_neg hauth, if_neg hdglen, if_neg hivlen, if_neg henclen]
    rcases hx : pkcs7_strip ciph.blocksz dec with _ | s
    all_goals simp [hx, box_with_plain, hcip, hkdf, hep]
  rcases hstrip : pkcs7_strip ciph.blocksz dec with _ | s
  · have hfail := (pkcs7_strip_none_iff ciph.blocksz dec).mp hstrip
    rw [hredOff, hredOn, hstrip]
    refine ⟨by simp [hfail], by simp [hfail], by simp [Errf.causedBy],
      fun h => absurd hfail h⟩
  · have hok : ¬ pad_check_fails ciph.blocksz dec := by
      intro h
      rw [(pkcs7_strip_none_iff ciph.blocksz dec).mpr h] at hstrip
      exact absurd hstrip (by simp)
    have hs : s = dec.take (dec.length - dec.getD (dec.length - 1) 0) := by
      have := pkcs7_strip_some_of_ok ciph.blocksz dec hok
      rw [hstrip] at this
      simpa using this
    rw [hredOff, hredOn, hstrip, hs]
    refine ⟨by simp [hok], by simp [hok], by simp [Errf.causedBy],
      fun _ => ⟨rfl, rfl⟩⟩

/-- Concrete stand-in for the on-card ECDH step (`piv_ecdh` with the toy
recipient key resident in the card slot). -/
def toyCardEcdh : SshKey → Except Errf (List Nat) :=
  fun k => .ok [(3 * k.point.headD 0) % 251]

/-- The sealed form of `toySealBox`: what `piv_box_seal_offline` produced
for the toy recipient under `toyEnv`. -/
def toyOpenBox : PivBox :=
  { pdb_version := 2,
    pdb_cipher := some BOX_DEFAULT_CIPHER,
    pdb_kdf := some BOX_DEFAULT_KDF,
    pdb_nonce := [1, 2, 3, 4, 5, 6, 7, 8, 9, 10, 11, 12, 13, 14, 15, 16],
    pdb_iv := [0, 2, 4],
    pdb_enc := [104, 105, 2, 2, 7, 7],
    pdb_pub := some (sshkey_demote toyRecip),
    pdb_ephem_pub := some (sshkey_demote toyEphKey) }

/-- Witness for C3: on the concrete sealed box `toyOpenBox` the decryption
yields `104 105 2 2`, whose padding passes, so both open paths succeed and
the padding-failure equivalence holds. -/
theorem c3_padding_check_iff_witness :
    (piv_box_open_offline toyCipherByName toyKdfByName toyEcdh toyRecip
        toyOpenBox = .error ["InvalidDataError", "PaddingError"] ↔
      pad_check_fails toyCipher.blocksz [104, 105, 2, 2]) ∧
    (piv_box_open toyCipherByName toyKdfByName toyCardEcdh toyOpenBox =
        .error ["InvalidDataError", "PaddingError"] ↔
      pad_check_fails toyCipher.blocksz [104, 105, 2, 2]) ∧
    Errf.causedBy ["InvalidDataError", "PaddingError"] "PaddingError"
      = true ∧
    (¬ pad_check_fails toyCipher.blocksz [104, 105, 2, 2] →
      piv_box_open_offline toyCipherByName toyKdfByName toyEcdh toyRecip
        toyOpenBox = .ok (box_with_plain toyOpenBox
          (([104, 105, 2, 2] : List Nat).take
            (([104, 105, 2, 2] : List Nat).length -
              ([104, 105, 2, 2] : List Nat).getD
                (([104, 105, 2, 2] : List Nat).length - 1) 0))) ∧
      piv_box_open toyCipherByName toyKdfByName toyCardEcdh toyOpenBox =
        .ok (box_with_plain toyOpenBox
          (([104, 105, 2, 2] : List Nat).take
            (([104, 105, 2, 2] : List Nat).length -
              ([104, 105, 2, 2] : List Nat).getD
                (([104, 105, 2, 2] : List Nat).length - 1) 0)))) :=
  c3_padding_check_iff toyCipherByName toyKdfByName toyEcdh toyCardEcdh
    toyRecip toyOpenBox BOX_DEFAULT_CIPHER BOX_DEFAULT_KDF toyCipher
    toyKdf (sshkey_demote toyEphKey) [15] [104, 105, 2, 2]
    rfl rfl rfl (by decide) rfl (by decide) rfl (by decide) rfl
    (by decide) (by decide) (by decide)

/-- Modelled from the spec: ISO-7816 status word constants from piv.h
(outside src/).  Success is 0x9000. -/
def SW_NO_ERROR : Nat := 0x9000

/-- Modelled from the spec: 0x61xx means response bytes remain. -/
def SW_BYTES_REMAINING_00 : Nat := 0x6100

/-- Modelled from the spec: 0x6Cxx asks to retry with corrected Le. -/
def SW_CORRECT_LE_00 : Nat := 0x6C00

/-- Modelled from the spec: 0x62xx warning, no data change. -/
def SW_WARNING_NO_CHANGE_00 : Nat := 0x6200

/-- Modelled from the spec: 0x63xx warning. -/
def SW_WARNING_00 : Nat := 0x6300

/-- Modelled from the spec: 0x6A80 wrong data. -/
def SW_WRONG_DATA : Nat := 0x6A80

/-- Modelled from the spec: the ISO GET RESPONSE instruction byte. -/
def INS_CONTINUE : Nat := 0xC0

/-- What the command-sending loop of `piv_apdu_transceive_chain` hands to
the response loop: whether it returned to the caller early on a terminal
status, the last status word, the length of the last reply body, and how
many transceives were issued so far. -/
structure ChainCmdResult where
  early : Bool
  sw : Nat
  replyLen : Nat
  calls : Nat
deriving Repr, DecidableEq

/-- The command phase of `piv_apdu_transceive_chain`: slice the command
body into at most 255-byte segments (setting the chaining class bit on
all but the last), transceive each in turn, retry the same segment with a
corrected `Le` on 0x6Cxx, treat 0x90xx / 0x61xx / 0x62xx / 0x63xx as
success and advance, and return any other status to the caller at once.
The reader is a response oracle indexed by transceive count; `fuel` bounds
the loop (the 0x6C retry can repeat indefinitely with an adversarial
card). -/
def piv_apdu_chain_cmd (card : Nat → Nat × Nat) :
    Nat → Nat → Nat → Nat → Option ChainCmdResult
  | 0, _, _, _ => none
  | fuel + 1, rem, le, i =>
    let seglen := if 0xFF < rem then 0xFF else rem
    let (sw, rlen) := card i
    if sw &&& 0xFF00 = SW_CORRECT_LE_00 then
      piv_apdu_chain_cmd card fuel rem (sw &&& 0x00FF) (i + 1)
    else if sw &&& 0xFF00 = SW_NO_ERROR ∧ True ∨
        sw &&& 0xFF00 = SW_BYTES_REMAINING_00 ∨
        sw &&& 0xFF00 = SW_WARNING_NO_CHANGE_00 ∨
        sw &&& 0xFF00 = SW_WARNING_00 then
      if 0 < rem - seglen then
        piv_apdu_chain_cmd card fuel (rem - seglen) le (i + 1)
      else some ⟨false, sw, rlen, i + 1⟩
    else some ⟨true, sw, rlen, i + 1⟩

/-- Result of the response-continuation loop: the last status word and the
`gotok` flag recording whether a 0x9000 status was seen by the loop. -/
structure ChainRespResult where
  sw : Nat
  gotok : Bool
deriving Repr, DecidableEq

/-- The loop condition of the response-continuation phase: keep issuing
GET RESPONSE while the card says bytes remain (0x61xx), or reports plain
success with a full 255-byte body (the workaround for cards that omit
0x61xx). -/
def chainRespCond (sw rlen : Nat) : Prop :=
  sw &&& 0xFF00 = SW_BYTES_REMAINING_00 ∨ (sw = SW_NO_ERROR ∧ 0xFF ≤ rlen)

instance (sw rlen : Nat) : Decidable (chainRespCond sw rlen) := by
  unfold chainRespCond; infer_instance

/-- The response-continuation phase of `piv_apdu_transceive_chain`: while
the loop condition holds, note a 0x9000 in `gotok` and issue an ISO
GET RESPONSE (INS 0xC0), reading the next oracle answer. -/
def piv_apdu_chain_resp (card : Nat → Nat × Nat) :
    Nat → Nat → Nat → Nat → Bool → Option ChainRespResult
  | 0, _, _, _, _ => none
  | fuel + 1, i, sw, rlen, gotok =>
    if chainRespCond sw rlen then
      let gotok := if sw = SW_NO_ERROR then true else gotok
      let (sw2, rlen2) := card i
      piv_apdu_chain_resp card fuel (i + 1) sw2 rlen2 gotok
    else some ⟨sw, gotok⟩

/-- `piv_apdu_transceive_chain`: the command phase, then (unless the
command phase returned early) the response phase, then the buggy-card
normalization — a final 0x6A80 with `gotok` set is rewritten to 0x9000.
Returns the status word the caller sees. -/
def piv_apdu_transceive_chain (card : Nat → Nat × Nat)
    (fuel1 fuel2 cmdlen le : Nat) : Option Nat :=
  match piv_apdu_chain_cmd card fuel1 cmdlen le 0 with
  | none => none
  | some r =>
    if r.early then some r.sw
    else
      match piv_apdu_chain_resp card fuel2 r.calls r.sw r.replyLen false
        with
      | none => none
      | some rr =>
        some (if rr.gotok ∧ rr.sw = SW_WRONG_DATA then SW_NO_ERROR
          else rr.sw)

/-- The response-continuation loop starting from status `sw` and reply
length `rlen` at oracle index `i` observes a 0x9000 status at some
iteration.  This is a specification-side description of the trace,
independent of the implementation's `gotok` flag. -/
inductive ChainSawOk (card : Nat → Nat × Nat) : Nat → Nat → Nat → Prop
  | here (i sw rlen : Nat) : chainRespCond sw rlen → sw = SW_NO_ERROR →
      ChainSawOk card i sw rlen
  | later (i sw rlen : Nat) : chainRespCond sw rlen →
      ChainSawOk card (i + 1) (card i).1 (card i).2 →
      ChainSawOk card i sw rlen

theorem piv_apdu_chain_resp_gotok (card : Nat → Nat × Nat)
    (fuel : Nat) :
    ∀ (i sw rlen : Nat) (g : Bool) (rr : ChainRespResult),
    piv_apdu_chain_resp card fuel i sw rlen g = some rr →
    (rr.gotok = true ↔ (g = true ∨ ChainSawOk card i sw rlen)) := by
  induction fuel with
  | zero => intro i sw rlen g rr h; exact absurd h (by simp
      [piv_apdu_chain_resp])
  | succ fuel ih =>
    intro i sw rlen g rr h
    rw [piv_apdu_chain_resp] at h
    by_cases hc : chainRespCond sw rlen
    · rw [if_pos hc] at h
      simp only at h
      have := ih (i + 1) (card i).1 (card i).2
        (if sw = SW_NO_ERROR then true else g) rr h
      rw [this]
      by_cases hsw : sw = SW_NO_ERROR
      · rw [if_pos hsw]
        constructor
        · intro _; exact Or.inr (ChainSawOk.here i sw rlen hc hsw)
        · intro _; exact Or.inl rfl
      · rw [if_neg hsw]
        constructor
        · intro hh
          rcases hh with hh | hh
          · exact Or.inl hh
          · exact Or.inr (ChainSawOk.later i sw rlen hc hh)
        · intro hh
          rcases hh with hh | hh
          · exact Or.inl hh
          · cases hh with
            | here _ _ _ _ hsw2 => exact absurd hsw2 hsw
            | later _ _ _ _ hnext => exact Or.inr hnext
    · rw [if_neg hc] at h
      have : rr = ⟨sw, g⟩ := by
        simpa using h.symm
      subst this
      simp only
      constructor
      · intro hg; exact Or.inl hg
      · intro hh
        rcases hh with hh | hh
        · exact hh
        · cases hh with
          | here _ _ _ hc2 _ => exact absurd hc2 hc
          | later _ _ _ hc2 _ => exact absurd hc2 hc

/-- C5: during response chaining in `piv_apdu_transceive_chain`, if the
last GET RESPONSE returns status 0x6A80 (WRONG_DATA) after at least one
0x9000 status was observed during the response-continuation loop, the
final status word returned to the caller is normalized to 0x9000; in all
other cases the last status word is returned unchanged (including when the
command phase returns early on a terminal status).  `ChainSawOk` is the
trace-level statement that the loop observed a 0x9000. -/
theorem c5_final_sw_normalization (card : Nat → Nat × Nat)
    (fuel1 fuel2 cmdlen le : Nat) (r : ChainCmdResult)
    (hcmd : piv_apdu_chain_cmd card fuel1 cmdlen le 0 = some r) :
    (r.early = true →
      piv_apdu_transceive_chain card fuel1 fuel2 cmdlen le = some r.sw) ∧
    (r.early = false → ∀ rr : ChainRespResult,
      piv_apdu_chain_resp card fuel2 r.calls r.sw r.replyLen false =
        some rr →
      ((rr.gotok = true ↔ ChainSawOk card r.calls r.sw r.replyLen) ∧
       (rr.sw = SW_WRONG_DATA ∧ ChainSawOk card r.calls r.sw r.replyLen →
         piv_apdu_transceive_chain card fuel1 fuel2 cmdlen le =
           some SW_NO_ERROR) ∧
       (¬ (rr.sw = SW_WRONG_DATA ∧
           ChainSawOk card r.calls r.sw r.replyLen) →
         piv_apdu_transceive_chain card fuel1 fuel2 cmdlen le =
           some rr.sw))) := by
  constructor
  · intro he
    unfold piv_apdu_transceive_chain
    rw [hcmd]
    dsimp only
    rw [he]
    simp
  · intro he rr hresp
    have hg := piv_apdu_chain_resp_gotok card fuel2 r.calls r.sw
      r.replyLen false rr hresp
    simp only [Bool.false_eq_true, false_or] at hg
    refine ⟨hg, ?_, ?_⟩
    · rintro ⟨h6, hsaw⟩
      unfold piv_apdu_transceive_chain
      rw [hcmd]
      dsimp only
      rw [he]
      simp only [Bool.false_eq_true, if_false, ite_false]
      rw [hresp]
      dsimp only
      rw [if_pos ⟨by rw [hg]; exact hsaw, h6⟩]
    · intro hno
      unfold piv_apdu_transceive_chain
      rw [hcmd]
      dsimp only
      rw [he]
      simp only [Bool.false_eq_true, if_false, ite_false]
      rw [hresp]
      dsimp only
      rw [if_neg (by
        rintro ⟨hgt, h6⟩
        exact hno ⟨h6, hg.mp hgt⟩)]

/-- A concrete card trace for the 0x6A80 quirk: the command gets 0x9000
with a full 255-byte body (entering the response loop), then the GET
RESPONSE answers 0x6A80. -/
def c5card : Nat → Nat × Nat :=
  fun i => if i = 0 then (0x9000, 0xFF) else (0x6A80, 0)

/-- Witness for C5: on the concrete trace the final 0x6A80 is normalized
to 0x9000. -/
theorem c5_final_sw_normalization_witness :
    piv_apdu_transceive_chain c5card 1 2 0 0 = some SW_NO_ERROR :=
  ((c5_final_sw_normalization c5card 1 2 0 0
      ⟨false, 0x9000, 0xFF, 1⟩ rfl).2 rfl ⟨0x6A80, true⟩ rfl).2.1
    ⟨rfl, ChainSawOk.here 1 0x9000 0xFF
      (Or.inr ⟨rfl, by norm_num⟩) rfl⟩

/-- Modelled from the spec: 0x63Cx, PIN incorrect with x retries left. -/
def SW_INCORRECT_PIN : Nat := 0x63C0

/-- Modelled from the spec: 0x6700 wrong length. -/
def SW_WRONG_LENGTH : Nat := 0x6700

/-- Modelled from the spec: 0x6983, PIN or key blocked. -/
def SW_FILE_INVALID : Nat := 0x6983

/-- Modelled from the spec: 0x6A86 incorrect P1/P2 (no admin key). -/
def SW_INCORRECT_P1P2 : Nat := 0x6A86

/-- Modelled from the spec: 0x6982 security status not satisfied. -/
def SW_SECURITY_STATUS_NOT_SATISFIED : Nat := 0x6982

deriving instance DecidableEq for Except

/-- The token state the transaction claims are about: the
transaction-held flag `pt_intxn` and the reset-on-transaction-end flag
`pt_reset`. -/
structure PivTokenSt where
  pt_intxn : Bool := false
  pt_reset : Bool := false
deriving Repr, DecidableEq

/-- The disposition `piv_txn_end` passes to `SCardEndTransaction`. -/
inductive ScardDisposition where
  | leave
  | reset
deriving Repr, DecidableEq

/-- `piv_txn_end`: end the reader transaction with a card-reset
disposition exactly when `pt_reset` is set, then clear both the
in-transaction flag and the reset flag.  `none` models the `VERIFY`
abort when no transaction is held. -/
def piv_txn_end (tok : PivTokenSt) : Option (ScardDisposition × PivTokenSt) :=
  if tok.pt_intxn = true then
    some (if tok.pt_reset = true then ScardDisposition.reset
      else ScardDisposition.leave, { pt_intxn := false, pt_reset := false })
  else none

/-- An APDU the PIN functions transmit, recorded so theorems can state
which commands actually reached the card. -/
inductive PivCmd where
  | verifyEmpty (p2 : Nat)
  | verifyPin (p2 : Nat) (pinbuf : List Nat)
deriving Repr, DecidableEq

/-- Outcome of `piv_verify_pin`: the returned error value, the value left
in the caller's retries out-parameter, the token state, and the APDUs
transmitted. -/
structure VerifyPinResult where
  res : Except Errf Unit
  retriesOut : Option Nat
  tok : PivTokenSt
  sent : List PivCmd
deriving Repr, DecidableEq

/-- The PIN-attempt tail of `piv_verify_pin` (the code after the empty
VERIFY, from the `strlen` check on): validate the PIN length, build the
8-byte 0xFF-padded PIN buffer, transmit it, and translate the status
word; on 0x9000 the reset-on-transaction-end flag is raised. -/
def piv_verify_pin_attempt (tok : PivTokenSt) (type : Nat)
    (p : List Nat) (retries : Option Nat) (swPin : Nat)
    (sent0 : List PivCmd) : VerifyPinResult :=
  if p.length < 1 ∨ 8 < p.length then
    ⟨.error ["ArgumentError"], retries, tok, sent0⟩
  else
    let pinbuf := p ++ List.replicate (8 - p.length) 0xFF
    let sent := sent0 ++ [PivCmd.verifyPin type pinbuf]
    if swPin = SW_NO_ERROR then
      ⟨.ok (), retries, { tok with pt_reset := true }, sent⟩
    else if swPin = SW_FILE_INVALID then
      ⟨.error ["PermissionError", "APDUError"],
        (if retries.isSome then some 0 else none), tok, sent⟩
    else if swPin &&& 0xFFF0 = SW_INCORRECT_PIN then
      ⟨.error ["PermissionError", "APDUError"],
        (if retries.isSome then some (swPin &&& 0x000F) else none),
        tok, sent⟩
    else
      ⟨.error ["APDUError"], retries, tok, sent⟩

/-- `piv_verify_pin`: the five use cases of the function.  An initial
empty VERIFY is issued when no PIN is given, when `canskip` is set, or
when a positive minimum-retries value is supplied; its status word is
`swEmpty`.  A 0x63Cx answer with at most the requested minimum retries
remaining yields `MinRetriesError` without transmitting the PIN; 0x9000
(already authenticated) returns immediately for queries and `canskip`
callers; 0x6700/0x6A80 (no empty-VERIFY support) fails retry queries and
otherwise falls through to the attempt, whose status word is `swPin`. -/
def piv_verify_pin (tok : PivTokenSt) (type : Nat)
    (pin : Option (List Nat)) (retries : Option Nat) (canskip : Bool)
    (swEmpty swPin : Nat) : VerifyPinResult :=
  if tok.pt_intxn ≠ true then ⟨.error ["AssertionError"], retries, tok, []⟩
  else if pin.isNone ∨ canskip ∨ (retries.isSome ∧ 0 < retries.getD 0)
  then
    let sent0 := [PivCmd.verifyEmpty type]
    if swEmpty &&& 0xFFF0 = SW_INCORRECT_PIN then
      if pin.isSome ∧ retries.isSome ∧ 0 < retries.getD 0 ∧
          swEmpty &&& 0x000F ≤ retries.getD 0 then
        ⟨.error ["MinRetriesError"], some (swEmpty &&& 0x000F), tok,
          sent0⟩
      else if pin.isNone then
        ⟨.ok (), (if retries.isSome then some (swEmpty &&& 0x000F)
          else none), tok, sent0⟩
      else
        piv_verify_pin_attempt tok type (pin.getD []) retries swPin sent0
    else if swEmpty = SW_WRONG_LENGTH ∨ swEmpty = SW_WRONG_DATA then
      if pin.isNone then
        ⟨.error ["NotSupportedError", "APDUError"], retries, tok, sent0⟩
      else
        piv_verify_pin_attempt tok type (pin.getD []) retries swPin sent0
    else if swEmpty = SW_NO_ERROR then
      if pin.isNone then
        ⟨.ok (), retries, tok, sent0⟩
      else if canskip then
        ⟨.ok (), retries, tok, sent0⟩
      else
        piv_verify_pin_attempt tok type (pin.getD []) retries swPin sent0
    else
      ⟨.error ["APDUError"], retries, tok, sent0⟩
  else
    piv_verify_pin_attempt tok type (pin.getD []) retries swPin []

/-- `piv_change_pin`: validate both PIN lengths, transmit the 16-byte
0xFF-padded CHANGE REFERENCE DATA body, and on 0x9000 raise the
reset-on-transaction-end flag. -/
def piv_change_pin (tok : PivTokenSt) (type : Nat)
    (pin newpin : List Nat) (sw : Nat) : Except Errf Unit × PivTokenSt :=
  if tok.pt_intxn ≠ true then (.error ["AssertionError"], tok)
  else if pin.length < 1 ∨ 8 < pin.length then
    (.error ["ArgumentError"], tok)
  else if newpin.length < 1 ∨ 8 < newpin.length then
    (.error ["ArgumentError"], tok)
  else if sw = SW_NO_ERROR then
    (.ok (), { tok with pt_reset := true })
  else if sw &&& 0xFFF0 = SW_INCORRECT_PIN then
    (.error ["PermissionError", "APDUError"], tok)
  else
    (.error ["APDUError"], tok)

/-- `piv_reset_pin`: like `piv_change_pin` with the PUK, with an extra
0x6983 (blocked PUK) branch. -/
def piv_reset_pin (tok : PivTokenSt) (type : Nat)
    (puk newpin : List Nat) (sw : Nat) : Except Errf Unit × PivTokenSt :=
  if tok.pt_intxn ≠ true then (.error ["AssertionError"], tok)
  else if puk.length < 1 ∨ 8 < puk.length then
    (.error ["ArgumentError"], tok)
  else if newpin.length < 1 ∨ 8 < newpin.length then
    (.error ["ArgumentError"], tok)
  else if sw = SW_NO_ERROR then
    (.ok (), { tok with pt_reset := true })
  else if sw &&& 0xFFF0 = SW_INCORRECT_PIN then
    (.error ["PermissionError", "APDUError"], tok)
  else if sw = SW_FILE_INVALID then
    (.error ["PermissionError", "APDUError"], tok)
  else
    (.error ["APDUError"], tok)

/-- `piv_auth_admin` (single-step challenge-response): request a
challenge (`sw1`, `chal` from the card), translate challenge-phase
errors, check the challenge is one cipher block, encrypt it under the
admin key with a zero IV, raise the reset-on-transaction-end flag, and
only then transmit the response (`sw2`) and translate its status. -/
def piv_auth_admin (tok : PivTokenSt) (cipher : SshCipher)
    (key : List Nat) (sw1 : Nat) (chal : List Nat) (sw2 : Nat) :
    Except Errf Unit × PivTokenSt :=
  if tok.pt_intxn ≠ true then (.error ["AssertionError"], tok)
  else if cipher.authlen ≠ 0 then (.error ["AssertionError"], tok)
  else if cipher.keylen ≠ key.length then (.error ["ArgumentError"], tok)
  else if sw1 = SW_INCORRECT_P1P2 then
    (.error ["NotFoundError", "APDUError"], tok)
  else if sw1 = SW_WRONG_DATA ∨ sw1 = SW_SECURITY_STATUS_NOT_SATISFIED
  then
    (.error ["PermissionError", "APDUError"], tok)
  else if sw1 ≠ SW_NO_ERROR then
    (.error ["NotSupportedError", "APDUError"], tok)
  else if cipher.blocksz ≠ chal.length then
    (.error ["InvalidDataError", "LengthError"], tok)
  else
    let _resp := cipher.encrypt (key.take cipher.keylen)
      (List.replicate cipher.ivlen 0) chal
    let tok := { tok with pt_reset := true }
    if sw2 = SW_NO_ERROR then (.ok (), tok)
    else if sw2 = SW_INCORRECT_P1P2 then
      (.error ["NotFoundError", "APDUError"], tok)
    else if sw2 = SW_WRONG_DATA ∨ sw2 = SW_SECURITY_STATUS_NOT_SATISFIED
    then
      (.error ["PermissionError", "APDUError"], tok)
    else
      (.error ["APDUError"], tok)

/-- Counterexample for C7: with a minimum of N = 1 retries requested and
the empty VERIFY reporting exactly R = 1 retry remaining (status 0x63C1),
the claim says the PIN attempt is made (R >= N); the code instead returns
`MinRetriesError` and never transmits the PIN, because its guard is
`remaining <= minimum`, not `remaining < minimum`. -/
theorem c7_min_retries_counterexample :
    (piv_verify_pin ⟨true, false⟩ 0x80 (some [49]) (some 1) false
      0x63C1 0x9000).res = .error ["MinRetriesError"] ∧
    (piv_verify_pin ⟨true, false⟩ 0x80 (some [49]) (some 1) false
      0x63C1 0x9000).sent = [PivCmd.verifyEmpty 0x80] := by
  decide

/-- C7 (amended): when `piv_verify_pin` is called with a PIN and a
positive minimum-retries value N, and the initial empty VERIFY reports R
retries remaining (status 0x63Cx with x = R), a `MinRetriesError` is
returned — without transmitting the PIN and leaving the token state
unchanged, with R stored in the retries out-parameter — exactly when
R is at most N; the PIN attempt is transmitted only when strictly more
than N retries remain. -/
theorem c7_min_retries_boundary (tok : PivTokenSt) (type : Nat)
    (p : List Nat) (N R swEmpty swPin : Nat) (canskip : Bool)
    (hintxn : tok.pt_intxn = true)
    (hplen : 1 ≤ p.length ∧ p.length ≤ 8)
    (hN : 0 < N)
    (hswh : swEmpty &&& 0xFFF0 = SW_INCORRECT_PIN)
    (hswl : swEmpty &&& 0x000F = R) :
    (R ≤ N →
      piv_verify_pin tok type (some p) (some N) canskip swEmpty swPin =
        ⟨.error ["MinRetriesError"], some R, tok,
          [PivCmd.verifyEmpty type]⟩) ∧
    (N < R →
      PivCmd.verifyPin type (p ++ List.replicate (8 - p.length) 0xFF) ∈
        (piv_verify_pin tok type (some p) (some N) canskip swEmpty
          swPin).sent) := by
  have hcond : (some p : Option (List Nat)).isNone = true ∨
      canskip = true ∨ ((some N : Option Nat).isSome = true ∧
        0 < (some N : Option Nat).getD 0) := by
    right; right; exact ⟨rfl, hN⟩
  constructor
  · intro hle
    unfold piv_verify_pin
    rw [if_neg (by simp [hintxn]), if_pos hcond, if_pos hswh,
      if_pos ⟨rfl, rfl, hN, by rw [hswl]; simpa using hle⟩, hswl]
  · intro hgt
    unfold piv_verify_pin
    rw [if_neg (by simp [hintxn]), if_pos hcond, if_pos hswh,
      if_neg (by
        rintro ⟨-, -, -, hle⟩
        rw [hswl] at hle
        simp only [Option.getD_some] at hle
        omega)]
    rw [if_neg (by simp : ¬ (some p : Option (List Nat)).isNone = true)]
    unfold piv_verify_pin_attempt
    split
    · rename_i h
      simp only [Option.getD_some] at h
      exact absurd h (by omega)
    · split <;> (try split) <;> (try split) <;> simp

/-- Witness for the amended C7 theorem: with minimum 1 and 3 retries
remaining, the PIN attempt is transmitted. -/
theorem c7_min_retries_boundary_witness :
    (3 ≤ 1 →
      piv_verify_pin ⟨true, false⟩ 0x80 (some [49]) (some 1) false
        0x63C3 0x9000 =
        ⟨.error ["MinRetriesError"], some 3, ⟨true, false⟩,
          [PivCmd.verifyEmpty 0x80]⟩) ∧
    (1 < 3 →
      PivCmd.verifyPin 0x80 ([49] ++ List.replicate (8 - 1) 0xFF) ∈
        (piv_verify_pin ⟨true, false⟩ 0x80 (some [49]) (some 1) false
          0x63C3 0x9000).sent) :=
  c7_min_retries_boundary ⟨true, false⟩ 0x80 [49] 1 3 0x63C3 0x9000
    false rfl (by decide) (by decide) (by decide) (by decide)

/-- Counterexample for C4: `piv_verify_pin` called with a PIN and
`canskip` set, on a card that answers the empty VERIFY with 0x9000
(already authenticated), returns success without transmitting the PIN and
leaves the reset-on-transaction-end flag clear, so the next `piv_txn_end`
ends the transaction with the leave (no-reset) disposition — contradicting
the claim that after any successful PIN verify the flag is true and the
next transaction end resets the card. -/
theorem c4_canskip_counterexample :
    (piv_verify_pin ⟨true, false⟩ 0x80 (some [49, 50, 51, 52]) none true
      0x9000 0x9000).res = .ok () ∧
    (piv_verify_pin ⟨true, false⟩ 0x80 (some [49, 50, 51, 52]) none true
      0x9000 0x9000).sent = [PivCmd.verifyEmpty 0x80] ∧
    (piv_verify_pin ⟨true, false⟩ 0x80 (some [49, 50, 51, 52]) none true
      0x9000 0x9000).tok.pt_reset = false ∧
    piv_txn_end (piv_verify_pin ⟨true, false⟩ 0x80
      (some [49, 50, 51, 52]) none true 0x9000 0x9000).tok =
      some (ScardDisposition.leave,
        { pt_intxn := false, pt_reset := false }) := by
  decide


theorem piv_verify_pin_attempt_ok_reset (tok : PivTokenSt) (type : Nat)
    (p : List Nat) (retries : Option Nat) (swPin : Nat)
    (sent0 : List PivCmd) :
    (piv_verify_pin_attempt tok type p retries swPin sent0).res =
      .ok () →
    (piv_verify_pin_attempt tok type p retries swPin
      sent0).tok.pt_reset = true := by
  unfold piv_verify_pin_attempt
  repeat' split
  all_goals simp

set_option maxHeartbeats 2000000 in
/-- C4 (amended): after a successful PIN verify that actually transmits
the PIN, and after any successful PIN change, PIN reset, or admin
authentication, the token's reset-on-transaction-end flag is true; and
`piv_txn_end` ends the reader transaction with the card-reset disposition
exactly when that flag is set, after which both the in-transaction flag
and the reset flag are cleared.  (A `piv_verify_pin` call that returns
success without transmitting the PIN — a pure status query, or `canskip`
finding the card already authenticated — leaves the flag unchanged; see
the counterexample.) -/
theorem c4_reset_flag_lifecycle
    (tok : PivTokenSt) (type : Nat) (pin : Option (List Nat))
    (retries : Option Nat) (canskip : Bool) (swEmpty swPin : Nat)
    (p1 p2 : List Nat) (sw : Nat) (cipher : SshCipher) (key : List Nat)
    (sw1 : Nat) (chal : List Nat) (sw2 : Nat) :
    ((piv_verify_pin tok type pin retries canskip swEmpty swPin).res =
        .ok () ∧
      (∃ pb, PivCmd.verifyPin type pb ∈
        (piv_verify_pin tok type pin retries canskip swEmpty
          swPin).sent) →
      (piv_verify_pin tok type pin retries canskip swEmpty
        swPin).tok.pt_reset = true) ∧
    ((piv_change_pin tok type p1 p2 sw).1 = .ok () →
      (piv_change_pin tok type p1 p2 sw).2.pt_reset = true) ∧
    ((piv_reset_pin tok type p1 p2 sw).1 = .ok () →
      (piv_reset_pin tok type p1 p2 sw).2.pt_reset = true) ∧
    ((piv_auth_admin tok cipher key sw1 chal sw2).1 = .ok () →
      (piv_auth_admin tok cipher key sw1 chal sw2).2.pt_reset = true) ∧
    (tok.pt_intxn = true →
      piv_txn_end tok = some
        ((if tok.pt_reset = true then ScardDisposition.reset
          else ScardDisposition.leave),
         { pt_intxn := false, pt_reset := false })) := by
  refine ⟨?_, ?_, ?_, ?_, ?_⟩
  · unfold piv_verify_pin
    repeat' split
    all_goals
      try (rintro ⟨h, pb, hpb⟩
           exact piv_verify_pin_attempt_ok_reset _ _ _ _ _ _ h)
    all_goals rintro ⟨h1, pb, hpb⟩
    all_goals simp_all
  · unfold piv_change_pin
    repeat' split
    all_goals simp
  · unfold piv_reset_pin
    repeat' split
    all_goals simp
  · intro h
    unfold piv_auth_admin at h ⊢
    repeat' split at h
    all_goals simp_all
  · intro h
    unfold piv_txn_end
    rw [if_pos h]

/-- C10: `piv_auth_admin` raises the reset-on-transaction-end flag as soon
as it has obtained and encrypted the card's challenge, before the
authentication response APDU is transmitted; consequently the next
`piv_txn_end` issues a card reset even when the admin authentication
ultimately fails — whatever status word `sw2` the card answers to the
response APDU, the flag is set, and in particular a wrong admin key
(response rejected with 0x6A80) yields a `PermissionError` with the flag
still set, so the transaction ends with the card-reset disposition. -/
theorem c10_admin_reset_before_response
    (tok : PivTokenSt) (cipher : SshCipher) (key : List Nat)
    (chal : List Nat) (sw2 : Nat)
    (hintxn : tok.pt_intxn = true)
    (hauth : cipher.authlen = 0)
    (hkey : cipher.keylen = key.length)
    (hblk : cipher.blocksz = chal.length) :
    (piv_auth_admin tok cipher key SW_NO_ERROR chal sw2).2.pt_reset =
      true ∧
    (sw2 = SW_WRONG_DATA →
      (piv_auth_admin tok cipher key SW_NO_ERROR chal sw2).1 =
        .error ["PermissionError", "APDUError"]) ∧
    piv_txn_end (piv_auth_admin tok cipher key SW_NO_ERROR chal sw2).2 =
      some (ScardDisposition.reset,
        { pt_intxn := false, pt_reset := false }) := by
  have hred : piv_auth_admin tok cipher key SW_NO_ERROR chal sw2 =
      (if sw2 = SW_NO_ERROR then
        (.ok (), { tok with pt_reset := true })
      else if sw2 = SW_INCORRECT_P1P2 then
        (.error ["NotFoundError", "APDUError"],
          { tok with pt_reset := true })
      else if sw2 = SW_WRONG_DATA ∨
          sw2 = SW_SECURITY_STATUS_NOT_SATISFIED then
        (.error ["PermissionError", "APDUError"],
          { tok with pt_reset := true })
      else (.error ["APDUError"], { tok with pt_reset := true })) := by
    unfold piv_auth_admin
    rw [if_neg (by simp [hintxn]), if_neg (by simp [hauth]),
      if_neg (by simp [hkey]),
      if_neg (by simp [SW_NO_ERROR, SW_INCORRECT_P1P2]),
      if_neg (by
        simp [SW_NO_ERROR, SW_WRONG_DATA,
          SW_SECURITY_STATUS_NOT_SATISFIED]),
      if_neg (by simp), if_neg (by simp [hblk])]
  have h2 : (piv_auth_admin tok cipher key SW_NO_ERROR chal sw2).2 =
      { tok with pt_reset := true } := by
    rw [hred]
    split
    · rfl
    · split
      · rfl
      · split
        · rfl
        · rfl
  refine ⟨by rw [h2], ?_, ?_⟩
  · intro h6
    rw [hred, if_neg (by rw [h6]; simp [SW_WRONG_DATA, SW_NO_ERROR]),
      if_neg (by rw [h6]; simp [SW_WRONG_DATA, SW_INCORRECT_P1P2]),
      if_pos (Or.inl h6)]
  · rw [h2]
    unfold piv_txn_end
    rw [if_pos (by simp [hintxn])]
    simp

/-- Witness for C10: with a one-byte toy admin cipher and a wrong admin
key (the card answers the response APDU with 0x6A80), the call fails with
a `PermissionError` yet the reset flag is set and the next transaction end
resets the card. -/
theorem c10_admin_reset_before_response_witness :
    (piv_auth_admin ⟨true, false⟩
      ⟨1, 1, 0, 1, fun _ _ m => m, fun _ _ e => some e⟩ [9]
      SW_NO_ERROR [5] 0x6A80).2.pt_reset = true ∧
    ((0x6A80 : Nat) = SW_WRONG_DATA →
      (piv_auth_admin ⟨true, false⟩
        ⟨1, 1, 0, 1, fun _ _ m => m, fun _ _ e => some e⟩ [9]
        SW_NO_ERROR [5] 0x6A80).1 =
        .error ["PermissionError", "APDUError"]) ∧
    piv_txn_end (piv_auth_admin ⟨true, false⟩
      ⟨1, 1, 0, 1, fun _ _ m => m, fun _ _ e => some e⟩ [9]
      SW_NO_ERROR [5] 0x6A80).2 =
      some (ScardDisposition.reset,
        { pt_intxn := false, pt_reset := false }) :=
  c10_admin_reset_before_response ⟨true, false⟩
    ⟨1, 1, 0, 1, fun _ _ m => m, fun _ _ e => some e⟩ [9] [5] 0x6A80
    rfl rfl rfl rfl

/-- The GUID fallback at the end of a successful `piv_read_chuid` parse
(piv.c lines 1044-1066): if the parsed Card GUID (tag 0x34) is all-zero,
copy in the Cardholder UUID (tag 0x36, zero-filled when absent); if the
result is still all-zero and a FASC-N (tag 0x30) of non-zero length was
parsed, set the GUID to the first 16 bytes of SHA-256 of the FASC-N
bytes.  `sha256` is the external digest. -/
def piv_read_chuid_guid_fallback (sha256 : List Nat → List Nat)
    (guid chuuid fascn : List Nat) : List Nat :=
  if guid.all (fun b => b = 0) then
    let guid := chuuid
    if guid.all (fun b => b = 0) ∧ 0 < fascn.length then
      (sha256 fascn).take 16
    else guid
  else guid

/-- C6: when `piv_read_chuid` successfully parses a CHUID whose Card GUID
is all-zero, the token GUID is taken from the Cardholder UUID; if that is
also missing or all-zero and the FASC-N is present with non-zero length,
the GUID becomes the first 16 bytes of SHA-256 of the FASC-N bytes. -/
theorem c6_chuid_guid_fallback (sha256 : List Nat → List Nat)
    (guid chuuid fascn : List Nat)
    (hz : guid.all (fun b => b = 0) = true) :
    (¬ chuuid.all (fun b => b = 0) = true →
      piv_read_chuid_guid_fallback sha256 guid chuuid fascn = chuuid) ∧
    (chuuid.all (fun b => b = 0) = true → 0 < fascn.length →
      piv_read_chuid_guid_fallback sha256 guid chuuid fascn =
        (sha256 fascn).take 16) := by
  constructor
  · intro h
    unfold piv_read_chuid_guid_fallback
    rw [if_pos hz, if_neg (by rintro ⟨h1, -⟩; exact h h1)]
  · intro h hf
    unfold piv_read_chuid_guid_fallback
    rw [if_pos hz, if_pos ⟨h, hf⟩]

/-- Witness for C6: an all-zero Card GUID and Cardholder UUID with a
present FASC-N give the truncated SHA-256 of the FASC-N (toy digest:
sixteen copies of the byte sum, twice). -/
theorem c6_chuid_guid_fallback_witness :
    (¬ (List.replicate 16 0).all (fun b => b = 0) = true →
      piv_read_chuid_guid_fallback
        (fun l => List.replicate 32 (l.sum % 256))
        (List.replicate 16 0) (List.replicate 16 0) [1, 2, 3] =
        List.replicate 16 0) ∧
    ((List.replicate 16 0).all (fun b => b = 0) = true →
      0 < ([1, 2, 3] : List Nat).length →
      piv_read_chuid_guid_fallback
        (fun l => List.replicate 32 (l.sum % 256))
        (List.replicate 16 0) (List.replicate 16 0) [1, 2, 3] =
        ((fun l => List.replicate 32 (l.sum % 256)) [1, 2, 3]).take 16) :=
  c6_chuid_guid_fallback (fun l => List.replicate 32 (l.sum % 256))
    (List.replicate 16 0) (List.replicate 16 0) [1, 2, 3] (by decide)
